import Mathlib

/-!
Shallow embedding of the coordinate-classification core of `src/metpy/xarray.py`:
the criteria table, `check_axis`, coordinate resolution with conflict tie-breaks,
the `_metpy_axis` attribute cache, axis lookup errors, and the quantity-aware
selection-key translator `_reassign_quantity_indexer`.

Coordinate variables are modelled as named records carrying an ordered attribute
association list (string keys and values) and a dimension-name list, mirroring the
per-variable ordered coordinate collection an xarray DataArray provides.  Attribute
mutation (the `_metpy_axis` cache mark) is modelled by explicit state passing of the
coordinate list; every write performed by a lookup is additionally recorded in a
write log so that theorems can speak about which marks a call touches.
-/

namespace MetPyXarray

/-- A coordinate variable: a name, the dimension names of the coordinate's own
array, and its metadata attribute dictionary (string-keyed, insertion ordered). -/
structure Coord where
  name : String
  dims : List String
  attrs : List (String × String)
  deriving Repr, DecidableEq

/-- A parent variable (DataArray): its name, its dimension tuple and its ordered
coordinate collection. -/
structure Variable where
  name : String
  dims : List String
  coords : List Coord
  deriving Repr, DecidableEq

/-- `attrs.get(k)`: first binding of key `k` in the attribute dictionary. -/
def attrsGet (attrs : List (String × String)) (k : String) : Option String :=
  (attrs.find? (fun p => p.1 == k)).map Prod.snd

/-- `attrs[k] = v`: replace the binding in place if the key exists, else append
(dict insertion semantics). -/
def attrsSet (attrs : List (String × String)) (k v : String) : List (String × String) :=
  if attrs.any (fun p => p.1 == k) then
    attrs.map (fun p => if p.1 == k then (k, v) else p)
  else attrs ++ [(k, v)]

/-- Python list/char-prefix test used to express `re.match` and substring search. -/
def isPrefixL : List Char → List Char → Bool
  | [], _ => true
  | _ :: _, [] => false
  | a :: as, b :: bs => a == b && isPrefixL as bs

/-- Substring search over character lists: some suffix of `s` starts with `sub`. -/
def containsSub (sub : List Char) : List Char → Bool
  | [] => sub.isEmpty
  | c :: rest => isPrefixL sub (c :: rest) || containsSub sub rest

/-- Python's `a in b` for strings: `a` occurs as a contiguous substring of `b`. -/
def strIn (a b : String) : Bool :=
  containsSub a.data b.data

/-- A criteria-table cell: either a single string (Python `in` is then substring
containment) or a set of strings (Python `in` is then exact membership). -/
inductive CritVal where
  | str (s : String)
  | set (l : List String)
  deriving Repr, DecidableEq

/-- Python `x in cell` where a missing cell behaves as the empty set
(`coordinate_criteria[criterion].get(axis, set())`). -/
def critMember (cell : Option CritVal) (x : String) : Bool :=
  match cell with
  | none => false
  | some (.str s) => strIn x s
  | some (.set l) => l.contains x

/-- `coordinate_criteria['standard_name']` entries, by readable axis kind. -/
def standardNameCriteria : String → Option CritVal
  | "time" => some (.str "time")
  | "vertical" => some (.set
      ["air_pressure", "height", "geopotential_height", "altitude",
       "model_level_number", "atmosphere_ln_pressure_coordinate",
       "atmosphere_sigma_coordinate",
       "atmosphere_hybrid_sigma_pressure_coordinate",
       "atmosphere_hybrid_height_coordinate", "atmosphere_sleve_coordinate",
       "height_above_geopotential_datum", "height_above_reference_ellipsoid",
       "height_above_mean_sea_level"])
  | "y" => some (.str "projection_y_coordinate")
  | "lat" => some (.str "latitude")
  | "x" => some (.str "projection_x_coordinate")
  | "lon" => some (.str "longitude")
  | _ => none

/-- `coordinate_criteria['_CoordinateAxisType']` entries. -/
def coordinateAxisTypeCriteria : String → Option CritVal
  | "time" => some (.str "Time")
  | "vertical" => some (.set ["GeoZ", "Height", "Pressure"])
  | "y" => some (.str "GeoY")
  | "lat" => some (.str "Lat")
  | "x" => some (.str "GeoX")
  | "lon" => some (.str "Lon")
  | _ => none

/-- `coordinate_criteria['axis']`, i.e. `readable_to_cf_axes` (lat/lon absent). -/
def axisCriteria : String → Option CritVal
  | "time" => some (.str "T")
  | "vertical" => some (.str "Z")
  | "y" => some (.str "Y")
  | "x" => some (.str "X")
  | _ => none

/-- `coordinate_criteria['positive']` entries (vertical only). -/
def positiveCriteria : String → Option CritVal
  | "vertical" => some (.set ["up", "down"])
  | _ => none

/-- Dimensional signatures of the finite pint fragment needed by the criteria
table and the claims under verification. -/
inductive Dim where
  | pressure
  | length
  | angle
  | dimensionless
  deriving Repr, DecidableEq

/-- A parsed unit: its dimensional signature and its multiplicative scale factor
relative to the base unit of its dimension. -/
structure UnitDef where
  dim : Dim
  factor : ℚ
  deriving Repr, DecidableEq

/-- Finite fragment of the MetPy unit registry: the unit spellings that the
criteria table and the verified scenarios mention.  Every other string is an
undefined unit (pint raises `UndefinedUnitError` on it). -/
def parseUnit : String → Option UnitDef
  | "Pa" => some ⟨.pressure, 1⟩
  | "hPa" => some ⟨.pressure, 100⟩
  | "mbar" => some ⟨.pressure, 100⟩
  | "millibar" => some ⟨.pressure, 100⟩
  | "m" => some ⟨.length, 1⟩
  | "meters" => some ⟨.length, 1⟩
  | "km" => some ⟨.length, 1000⟩
  | "degree_north" => some ⟨.angle, 1⟩
  | "degree_N" => some ⟨.angle, 1⟩
  | "degreeN" => some ⟨.angle, 1⟩
  | "degrees_north" => some ⟨.angle, 1⟩
  | "degrees_N" => some ⟨.angle, 1⟩
  | "degreesN" => some ⟨.angle, 1⟩
  | "degree_east" => some ⟨.angle, 1⟩
  | "degree_E" => some ⟨.angle, 1⟩
  | "degreeE" => some ⟨.angle, 1⟩
  | "degrees_east" => some ⟨.angle, 1⟩
  | "degrees_E" => some ⟨.angle, 1⟩
  | "degreesE" => some ⟨.angle, 1⟩
  | "dimensionless" => some ⟨.dimensionless, 1⟩
  | "percent" => some ⟨.dimensionless, 1/100⟩
  | _ => none

/-- `units.get_dimensionality(s)`.  pint maps a `None`/empty input to the empty
(dimensionless) container and raises `UndefinedUnitError` (modelled as `.error`)
on an unparseable string. -/
def getDimensionality : Option String → Except Unit Dim
  | none => .ok .dimensionless
  | some s =>
    match parseUnit s with
    | some u => .ok u.dim
    | none => .error ()

/-- `coordinate_criteria['units']`: either a dimensionality comparison against a
reference unit or exact membership of the raw unit string in a set of spellings. -/
inductive UnitsRule where
  | dimensionality (ref : String)
  | nameSet (l : List String)
  deriving Repr, DecidableEq

/-- The accepted latitude unit spellings. -/
def latUnitNames : List String :=
  ["degree_north", "degree_N", "degreeN", "degrees_north", "degrees_N", "degreesN"]

/-- The accepted longitude unit spellings. -/
def lonUnitNames : List String :=
  ["degree_east", "degree_E", "degreeE", "degrees_east", "degrees_E", "degreesE"]

/-- `coordinate_criteria['units']` entries by readable axis kind. -/
def unitsCriteria : String → Option UnitsRule
  | "vertical" => some (.dimensionality "Pa")
  | "lat" => some (.nameSet latUnitNames)
  | "lon" => some (.nameSet lonUnitNames)
  | _ => none

/-- First stage of `check_axis`: the four attribute criteria
(`standard_name`, `_CoordinateAxisType`, `axis`, `positive`), each compared with
Python `in` against the criteria cell, a missing attribute reading as `'absent'`. -/
def stage1 (c : Coord) (axis : String) : Bool :=
  critMember (standardNameCriteria axis) ((attrsGet c.attrs "standard_name").getD "absent")
  || critMember (coordinateAxisTypeCriteria axis)
      ((attrsGet c.attrs "_CoordinateAxisType").getD "absent")
  || critMember (axisCriteria axis) ((attrsGet c.attrs "axis").getD "absent")
  || critMember (positiveCriteria axis) ((attrsGet c.attrs "positive").getD "absent")

/-- Second stage of `check_axis`: the units criterion.  The whole stage sits in a
`try/except UndefinedUnitError: pass` in the source, so a parse failure makes the
stage non-matching instead of raising. -/
def stage2 (c : Coord) (axis : String) : Bool :=
  match unitsCriteria axis with
  | none => false
  | some (.dimensionality ref) =>
    match getDimensionality (attrsGet c.attrs "units"), getDimensionality (some ref) with
    | .ok d1, .ok d2 => d1 == d2
    | _, _ => false
  | some (.nameSet l) =>
    match attrsGet c.attrs "units" with
    | some s => l.contains s
    | none => false

/-- Alternation branches of the vertical name regular expression
`(bottom_top|sigma|h(ei)?ght|altitude|depth|isobaric|pres|isotherm)[a-z_]*[0-9]*`. -/
def verticalRegexBranches : List String :=
  ["bottom_top", "sigma", "hght", "height", "altitude", "depth", "isobaric",
   "pres", "isotherm"]

/-- ASCII lowercasing of one character (`str.lower()` on the ASCII coordinate
names the criteria patterns target). -/
def lowerChar (c : Char) : Char :=
  if c.toNat >= 65 && c.toNat <= 90 then Char.ofNat (c.toNat + 32) else c

/-- `name.lower()`. -/
def lowerString (s : String) : String :=
  String.mk (s.data.map lowerChar)

/-- `s` starts with `pre` (the anchored-at-start part of `re.match`). -/
def startsWithL (s pre : String) : Bool :=
  isPrefixL pre.data s.data

/-- Third stage of `check_axis`: `re.match(coordinate_criteria['regular_expression'][axis],
var.name.lower())`.  `re.match` anchors at the start only, and every pattern's
trailing parts (`[0-9]*` and `[a-z_]*`) match the empty string, so each pattern
reduces to a start-of-string test of its literal alternatives. -/
def regexMatches (axis : String) (lowerName : String) : Bool :=
  match axis with
  | "time" => startsWithL lowerName "time"
  | "vertical" => verticalRegexBranches.any (fun p => startsWithL lowerName p)
  | "y" => startsWithL lowerName "y"
  | "lat" => startsWithL lowerName "lat" || startsWithL lowerName "xlat"
  | "x" => startsWithL lowerName "x"
  | "lon" => startsWithL lowerName "lon" || startsWithL lowerName "xlon"
  | _ => false

/-- `check_axis(var, axis)` for a single axis kind: the three stages in source
order, short-circuiting on the first success. -/
def check_axis_one (c : Coord) (axis : String) : Bool :=
  stage1 c axis || stage2 c axis || regexMatches axis (lowerString c.name)

/-- `check_axis(var, *axes)`: logical OR over the supplied kinds, evaluated in
caller order. -/
def check_axis (c : Coord) (axes : List String) : Bool :=
  axes.any (fun a => check_axis_one c a)

/-! ### Coordinate resolution (`_generate_coordinate_map`, `_resolve_axis_conflict`) -/

/-- `cf_to_readable_axes`. -/
def cfToReadable : String → String
  | "T" => "time"
  | "Z" => "vertical"
  | "Y" => "y"
  | "X" => "x"
  | _ => ""

/-- `_resolve_axis_conflict(axis, coord_lists)`: for horizontal axes, keep a unique
projection coordinate (matching the `x`/`y` criteria) if there is exactly one;
otherwise keep a unique dimension coordinate (name among its own dims); otherwise
drop all candidates and flag a warning.  Returns the surviving list and whether a
warning was emitted. -/
def resolve_axis_conflict (axis : String) (lst : List Coord) : List Coord × Bool :=
  let projStep : Option (List Coord) :=
    if axis == "Y" || axis == "X" then
      let projectionCoords := lst.filter (fun c => check_axis c ["x", "y"])
      if projectionCoords.length == 1 then some projectionCoords else none
    else none
  match projStep with
  | some l => (l, false)
  | none =>
    let dimensionCoords := lst.filter (fun c => c.dims.contains c.name)
    if dimensionCoords.length == 1 then (dimensionCoords, false) else ([], true)

/-- Per-kind candidate bucket: the coordinates of `v` matching the readable kinds
checked for that CF axis (`axes_to_check`), in coordinate iteration order. -/
def axisCandidates (v : Variable) (readables : List String) : List Coord :=
  v.coords.filter (fun c => check_axis c readables)

/-- The candidate bucket after conflict resolution (conflicts are resolved only
for buckets with more than one candidate). -/
def axisResolved (v : Variable) (cf : String) (readables : List String) : List Coord :=
  let lst := axisCandidates v readables
  if lst.length > 1 then (resolve_axis_conflict cf lst).1 else lst

/-- The warning a conflicted, unresolvable bucket emits: the pair of the readable
axis kind and the variable name interpolated into the
`'More than one ... coordinate present for variable "..."'` message. -/
def axisWarn (v : Variable) (cf : String) (readables : List String) :
    List (String × String) :=
  let lst := axisCandidates v readables
  if lst.length > 1 && (resolve_axis_conflict cf lst).2 then
    [(cfToReadable cf, v.name)]
  else []

/-- `_generate_coordinate_map`: the collapsed CF-axis map (first surviving
candidate or absent, in the fixed key order T, Z, Y, X) together with the warnings
emitted while resolving conflicts. -/
def generate_coordinate_map (v : Variable) :
    List (String × Option Coord) × List (String × String) :=
  ([("T", (axisResolved v "T" ["time"]).head?),
    ("Z", (axisResolved v "Z" ["vertical"]).head?),
    ("Y", (axisResolved v "Y" ["y", "lat"]).head?),
    ("X", (axisResolved v "X" ["x", "lon"]).head?)],
   axisWarn v "T" ["time"] ++ axisWarn v "Z" ["vertical"]
     ++ axisWarn v "Y" ["y", "lat"] ++ axisWarn v "X" ["x", "lon"])

/-- Lookup of a CF axis in the collapsed coordinate map. -/
def lookupCF (cmap : List (String × Option Coord)) (cf : String) : Option Coord :=
  match cmap.find? (fun e => e.1 == cf) with
  | some e => e.2
  | none => none

/-! ### The `_metpy_axis` attribute cache (`_metpy_axis_search`) -/

/-- The cache mark of a coordinate: its `_metpy_axis` attribute. -/
def markOf (c : Coord) : Option String :=
  attrsGet c.attrs "_metpy_axis"

/-- `coord_var.attrs['_metpy_axis'] = mark` applied to every coordinate named
`cname` (xarray coordinate names are unique within a variable, and attribute
dictionaries are shared with the parent, so a write through any handle to the
coordinate is visible everywhere). -/
def setMark (coords : List Coord) (cname mark : String) : List Coord :=
  coords.map (fun c =>
    if c.name == cname then { c with attrs := attrsSet c.attrs "_metpy_axis" mark }
    else c)

/-- `any(coord.attrs.get('_metpy_axis') == axis for coord in coords)` on the live
coordinate state. -/
def hasMark (coords : List Coord) (mark : String) : Bool :=
  coords.any (fun c => markOf c == some mark)

/-- The cache-population loop of `_metpy_axis_search`: walk the coordinate map in
key order; for each resolved kind whose mark is not yet carried by any coordinate
(checked against the live, possibly already-mutated state), stamp the resolved
coordinate.  Returns the final coordinate state and the log of performed writes. -/
def writeMarks (coords : List Coord) :
    List (String × Option Coord) → List Coord × List (String × String)
  | [] => (coords, [])
  | e :: rest =>
    match e.2 with
    | none => writeMarks coords rest
    | some c =>
      if hasMark coords e.1 then writeMarks coords rest
      else
        let r := writeMarks (setMark coords c.name e.1) rest
        (r.1, (c.name, e.1) :: r.2)

/-- Outcome of one `_metpy_axis_search` call: the returned coordinate (by name,
`none` when the requested kind is absent), the coordinate state after the call,
the `_metpy_axis` writes performed, and the warnings emitted. -/
structure SearchResult where
  result : Option String
  coords : List Coord
  writes : List (String × String)
  warnings : List (String × String)
  deriving Repr, DecidableEq

/-- `_metpy_axis_search(cf_axis)`: return the first coordinate already carrying
the requested mark (cache hit, nothing re-derived); otherwise run the resolver,
opportunistically stamp marks for every resolved kind not already present, and
return the requested kind's resolution (possibly absent). -/
def metpy_axis_search (v : Variable) (cfAxis : String) : SearchResult :=
  match v.coords.find? (fun c => markOf c == some cfAxis) with
  | some c => ⟨some c.name, v.coords, [], []⟩
  | none =>
    let r := generate_coordinate_map v
    let w := writeMarks v.coords r.1
    ⟨(lookupCF r.1 cfAxis).map Coord.name, w.1, w.2, r.2⟩

/-! ### Axis access errors (`_axis`, `find_axis_name`) -/

/-- The errors the axis accessors raise: the two `AttributeError` messages of
`_axis` and the `ValueError` of `find_axis_name`. -/
inductive AxisError where
  | notAvailable (axis : String)
  | notInterpretable (axis : String)
  | notValidValueError
  deriving Repr, DecidableEq

instance {ε α : Type} [DecidableEq ε] [DecidableEq α] : DecidableEq (Except ε α) := fun a b =>
  match a, b with
  | .ok x, .ok y =>
    if h : x = y then isTrue (by rw [h]) else isFalse (by intro hc; cases hc; exact h rfl)
  | .error x, .error y =>
    if h : x = y then isTrue (by rw [h]) else isFalse (by intro hc; cases hc; exact h rfl)
  | .ok _, .error _ => isFalse (by intro hc; cases hc)
  | .error _, .ok _ => isFalse (by intro hc; cases hc)

/-- Outcome of an accessor call: the returned coordinate name or error, plus the
resulting coordinate state, write log and warnings of any resolution it ran. -/
structure AxisResult where
  result : Except AxisError String
  coords : List Coord
  writes : List (String × String)
  warnings : List (String × String)
  deriving Repr, DecidableEq

/-- `readable_to_cf_axes` as an association list. -/
def readable_to_cf_axes : List (String × String) :=
  [("time", "T"), ("vertical", "Z"), ("y", "Y"), ("x", "X")]

/-- Membership lookup in `readable_to_cf_axes`. -/
def lookupReadable (axis : String) : Option String :=
  (readable_to_cf_axes.find? (fun p => p.1 == axis)).map Prod.snd

/-- `_axis(axis)`: for a readable kind, search (possibly resolving and caching)
and raise `AttributeError(axis + ' attribute is not available.')` when absent;
for anything else raise `AttributeError("'" + axis + "' is not an interpretable
axis.")`. -/
def axisAccessor (v : Variable) (axis : String) : AxisResult :=
  match lookupReadable axis with
  | some cf =>
    let s := metpy_axis_search v cf
    match s.result with
    | some n => ⟨.ok n, s.coords, s.writes, s.warnings⟩
    | none => ⟨.error (.notAvailable axis), s.coords, s.writes, s.warnings⟩
  | none => ⟨.error (.notInterpretable axis), v.coords, [], []⟩

/-- `find_axis_name(axis)` for string identifiers (the integer branch of the
source indexes the dimension tuple positionally and is outside the claims): a
readable kind that is not itself a dimension name resolves through `_axis`; a
dimension name that is also a coordinate name is returned directly; anything else
raises `ValueError('Given axis is not valid. ...')`. -/
def find_axis_name (v : Variable) (axis : String) : AxisResult :=
  if !(v.dims.contains axis) && (lookupReadable axis).isSome then
    axisAccessor v axis
  else if v.dims.contains axis && v.coords.any (fun c => c.name == axis) then
    ⟨.ok axis, v.coords, [], []⟩
  else
    ⟨.error .notValidValueError, v.coords, [], []⟩

/-! ### The quantity indexer (`_reassign_quantity_indexer`) -/

/-- A scalar selection value: a unit-tagged quantity, a plain number, or Python
`None`. -/
inductive ScalarVal where
  | quantity (m : ℚ) (u : String)
  | plain (m : ℚ)
  | pynone
  deriving Repr, DecidableEq

/-- A selection value: a scalar or a `slice(start, stop, step)` of scalars. -/
inductive IdxVal where
  | scalar (s : ScalarVal)
  | slice3 (start stop step : ScalarVal)
  deriving Repr, DecidableEq

/-- Errors the indexer path can raise: pint's undefined-unit and dimensionality
errors, a dictionary `KeyError`, the propagated axis-absence `AttributeError`,
the uninterpretable-axis `AttributeError`, and an out-of-fuel marker for the
modelled dict-iteration loop (unreachable for the worklists the claims use). -/
inductive QErr where
  | undefinedUnit
  | dimensionality
  | keyError
  | axisAbsent (axis : String)
  | notInterpretable (axis : String)
  | fuelExhausted
  deriving Repr, DecidableEq

/-- `data[coord_name]`: the coordinate of that name. -/
def findCoord (v : Variable) (nm : String) : Option Coord :=
  v.coords.find? (fun c => c.name == nm)

/-- `.metpy.units` of a coordinate: parse its `units` attribute (default
`'dimensionless'`, with `'%'` replaced by `'percent'`); an unparseable string
raises `UndefinedUnitError`. -/
def metpyUnits (c : Coord) : Except QErr UnitDef :=
  let s := (attrsGet c.attrs "units").getD "dimensionless"
  let s2 := if s == "%" then "percent" else s
  match parseUnit s2 with
  | some u => .ok u
  | none => .error .undefinedUnit

/-- `_to_magnitude(val, unit)`: `val.to(unit).m` for a quantity (raising
`DimensionalityError` on incompatible dimensions), and the `except
AttributeError: return val` branch for plain numbers and `None`. -/
def to_magnitude (val : ScalarVal) (target : UnitDef) : Except QErr ScalarVal :=
  match val with
  | .quantity m u =>
    match parseUnit u with
    | none => .error .undefinedUnit
    | some ud =>
      if ud.dim == target.dim then .ok (.plain (m * ud.factor / target.factor))
      else .error .dimensionality
  | v => .ok v

/-- The value translation one loop body performs on `indexers[coord_name]`: the
slice branch converts start, stop and step in order, and the final unconditional
`_to_magnitude` call converts a scalar (a slice has no `.to`, so that call leaves
slices untouched). -/
def translateValue (target : UnitDef) : IdxVal → Except QErr IdxVal
  | .scalar s =>
    match to_magnitude s target with
    | .ok s2 => .ok (.scalar s2)
    | .error e => .error e
  | .slice3 a b c =>
    match to_magnitude a target with
    | .error e => .error e
    | .ok a2 =>
      match to_magnitude b target with
      | .error e => .error e
      | .ok b2 =>
        match to_magnitude c target with
        | .error e => .error e
        | .ok c2 => .ok (.slice3 a2 b2 c2)

/-- A selection-key mapping: an ordered dictionary from names to values. -/
abbrev Indexers := List (String × IdxVal)

/-- Dictionary lookup. -/
def idxGet (m : Indexers) (k : String) : Option IdxVal :=
  (m.find? (fun p => p.1 == k)).map Prod.snd

/-- Dictionary update (in place when the key exists, appended otherwise). -/
def idxSet (m : Indexers) (k : String) (val : IdxVal) : Indexers :=
  if m.any (fun p => p.1 == k) then
    m.map (fun p => if p.1 == k then (k, val) else p)
  else m ++ [(k, val)]

/-- Dictionary deletion. -/
def idxDel (m : Indexers) (k : String) : Indexers :=
  m.filter (fun p => p.1 != k)

/-- One body of the `for coord_name in indexers` loop of
`_reassign_quantity_indexer`, for a DataArray.  First the axis-kind rewrite: a
key that is a readable kind but not a dimension name is resolved through the
accessor (propagating its `AttributeError` when the kind is absent, and mutating
the cache marks), the value is moved under the coordinate's name and the old key
deleted; a key freshly inserted into the dictionary during iteration is visited
again later by CPython's dict iterator, reported here as the optional appended
key.  Then the slice conversion and the final `_to_magnitude` call, against the
units of `data[coord_name]`. -/
def processKey (v : Variable) (m : Indexers) (key : String) :
    Except QErr (Variable × Indexers × Option String) :=
  let rewritten : Except QErr (Variable × Indexers × String × Option String) :=
    if !(v.dims.contains key) && (lookupReadable key).isSome then
      let a := axisAccessor v key
      match a.result with
      | .ok n =>
        match idxGet m key with
        | some val =>
          .ok ({ v with coords := a.coords }, idxDel (idxSet m n val) key, n, some n)
        | none => .error .keyError
      | .error (.notAvailable ax) => .error (.axisAbsent ax)
      | .error (.notInterpretable ax) => .error (.notInterpretable ax)
      | .error .notValidValueError => .error .keyError
    else .ok (v, m, key, none)
  match rewritten with
  | .error e => .error e
  | .ok (v2, m2, key2, app) =>
    match idxGet m2 key2 with
    | none => .error .keyError
    | some val =>
      match findCoord v2 key2 with
      | none => .error .keyError
      | some c =>
        match metpyUnits c with
        | .error e => .error e
        | .ok u =>
          match translateValue u val with
          | .error e => .error e
          | .ok val2 => .ok (v2, idxSet m2 key2 val2, app)

/-- The dict-iteration loop as a worklist: keys are visited in order, and a key
inserted by a rewrite is appended for a later (idempotent) revisit, as CPython's
dict iterator does.  Fuel bounds the iteration; it is ample for every worklist
the verified scenarios produce. -/
def reassignLoop : Nat → Variable → Indexers → List String →
    Except QErr (Variable × Indexers)
  | 0, _, _, _ => .error .fuelExhausted
  | _ + 1, v, m, [] => .ok (v, m)
  | fuel + 1, v, m, key :: rest =>
    match processKey v m key with
    | .error e => .error e
    | .ok (v2, m2, app) =>
      reassignLoop fuel v2 m2 (rest ++ (match app with | some n => [n] | none => []))

/-- `_reassign_quantity_indexer(data, indexers)` for a DataArray. -/
def reassign_quantity_indexer (v : Variable) (m : Indexers) :
    Except QErr (Variable × Indexers) :=
  reassignLoop (2 * m.length + 2) v m (m.map Prod.fst)

/-- How one cache-population pass may change a coordinate, relative to a write
log `ws`: name, dims and every attribute other than `_metpy_axis` are untouched,
and the mark is either unchanged or one recorded in `ws` for this coordinate. -/
def coordShadow (ws : List (String × String)) (c c2 : Coord) : Prop :=
  c2.name = c.name ∧ c2.dims = c.dims ∧
  (∀ k, k ≠ "_metpy_axis" → attrsGet c2.attrs k = attrsGet c.attrs k) ∧
  (markOf c2 = markOf c ∨ ∃ K, (c2.name, K) ∈ ws ∧ markOf c2 = some K)

/-! ### Exact criteria membership (the spec-side notion for the claims) -/

/-- Exact equality with a criteria cell entry: equal to the single string, or a
member of the set.  This is the spec's reading of "exactly equals a Criteria
Table entry", to be compared with the source's Python-`in` test `critMember`. -/
def exactEntry : Option CritVal → String → Prop
  | some (.str t), s => s = t
  | some (.set l), s => s ∈ l
  | none, _ => False

/-! ### Concrete fixtures used by witnesses and counterexamples -/

/-- A coordinate whose `standard_name` is exactly `latitude` but whose name and
units match nothing. -/
def latExactCoord : Coord := ⟨"foo", [], [("standard_name", "latitude"), ("units", "weird")]⟩

/-- A coordinate whose `standard_name` `"im"` is a proper substring of the
`time` criteria string. -/
def imCoord : Coord := ⟨"foo2", [], [("standard_name", "im")]⟩

/-- A vertical-named coordinate with an unparseable unit string. -/
def furlongHeightCoord : Coord := ⟨"height", [], [("units", "furlongs")]⟩

/-- A variable with one ordinary dimension coordinate. -/
def plainVar : Variable := ⟨"pv", ["d0"], [⟨"d0", ["d0"], []⟩]⟩

/-- A variable whose coordinates carry duplicate, stale `T` marks: the first one
matches no time criterion at all. -/
def staleMarkVar : Variable :=
  ⟨"sv", ["time"],
   [⟨"zzz", [], [("_metpy_axis", "T")]⟩,
    ⟨"time", ["time"], [("_metpy_axis", "T")]⟩]⟩

/-- A variable with a single coordinate pre-marked `T` whose metadata resolves it
as vertical. -/
def markedHeightVar : Variable :=
  ⟨"mh", ["height"], [⟨"height", ["height"], [("_metpy_axis", "T")]⟩]⟩

/-- A variable with a single coordinate that resolves to both `Z` (by name) and
`Y` (by `standard_name`). -/
def projYHeightVar : Variable :=
  ⟨"ph", ["height"], [⟨"height", ["height"], [("standard_name", "projection_y_coordinate")]⟩]⟩

/-- An unmarked lat/lon variable where each kind resolves to its own coordinate. -/
def latLonVar : Variable :=
  ⟨"ll", ["lat", "lon"],
   [⟨"lat", ["lat"], [("units", "degrees_north")]⟩,
    ⟨"lon", ["lon"], [("units", "degrees_east")]⟩]⟩

/-- Two Y-kind candidates, exactly one of which is a projection coordinate. -/
def projTieVar : Variable :=
  ⟨"pt", ["latitude"],
   [⟨"yc", [], [("standard_name", "projection_y_coordinate")]⟩,
    ⟨"latitude", ["latitude"], []⟩]⟩

/-- Two lat-named Y-kind candidates, neither a projection nor a dimension
coordinate. -/
def twoLatVar : Variable :=
  ⟨"tv", ["d0"], [⟨"lat1", ["d0"], []⟩, ⟨"lat2", ["d0"], []⟩]⟩

/-- The pressure coordinate of the spec's concrete quantity-indexer scenario. -/
def pressureCoord : Coord :=
  ⟨"pressure", ["pressure"], [("standard_name", "air_pressure"), ("units", "hPa")]⟩

/-- A variable over the pressure coordinate. -/
def pressureVar : Variable := ⟨"temperature", ["pressure"], [pressureCoord]⟩

end MetPyXarray

namespace MetPyXarray

/-! ## Helper lemmas -/

theorem isPrefixL_append (l t : List Char) : isPrefixL l (l ++ t) = true := by
  induction l with
  | nil => rfl
  | cons a as ih => simp [isPrefixL, ih]

theorem containsSub_of_eq_append (a p t l : List Char) (h : l = p ++ (a ++ t)) :
    containsSub a l = true := by
  induction p generalizing l with
  | nil =>
    subst h
    match a with
    | [] =>
      match t with
      | [] => rfl
      | _ :: _ => simp [containsSub, isPrefixL]
    | x :: xs => simp [containsSub, isPrefixL, isPrefixL_append]
  | cons q qs ih =>
    subst h
    have hrest := ih (qs ++ (a ++ t)) rfl
    simp [containsSub, hrest]

theorem strIn_self (s : String) : strIn s s = true := by
  unfold strIn
  exact containsSub_of_eq_append s.data [] [] s.data (by simp)

theorem strIn_of_infix (s t : String) (h : s.data <:+: t.data) : strIn s t = true := by
  obtain ⟨p, q, hp⟩ := h
  exact containsSub_of_eq_append s.data p q t.data (by rw [← hp]; simp)

theorem critMember_of_exact (cell : Option CritVal) (s : String)
    (h : exactEntry cell s) : critMember cell s = true := by
  match cell with
  | none => exact absurd h (by simp [exactEntry])
  | some (.str t) =>
    have ht : s = t := h
    subst ht
    simpa [critMember] using strIn_self s
  | some (.set l) =>
    have hs : s ∈ l := h
    simpa [critMember] using hs

/-! ## C4 -/

/-- C4: a coordinate whose `standard_name` attribute exactly equals a criteria
table `standard_name` entry for axis kind `axis` satisfies `check_axis` for that
kind, whatever its name and declared units are. -/
theorem check_axis_of_standard_name_exact (c : Coord) (axis s : String)
    (hattr : attrsGet c.attrs "standard_name" = some s)
    (hmem : exactEntry (standardNameCriteria axis) s) :
    check_axis c [axis] = true := by
  have h1 : critMember (standardNameCriteria axis) s = true :=
    critMember_of_exact _ _ hmem
  simp [check_axis, check_axis_one, stage1, hattr, h1]

/-- Witness for C4 at a coordinate named `foo` with unparseable units. -/
theorem check_axis_of_standard_name_exact_witness :
    attrsGet latExactCoord.attrs "standard_name" = some "latitude" ∧
      check_axis latExactCoord ["lat"] = true := by
  refine ⟨by decide, ?_⟩
  exact check_axis_of_standard_name_exact latExactCoord "lat" "latitude" (by decide)
    (by simp [standardNameCriteria, exactEntry])

/-! ## C9 -/

/-- C9: for a single-string criteria `standard_name` entry, the membership test
of `check_axis` is substring containment: any coordinate whose attribute value is
a non-empty contiguous substring of the criteria string matches the kind, not
only an exact equal. -/
theorem check_axis_of_standard_name_substring (axis t : String)
    (hcell : standardNameCriteria axis = some (.str t))
    (c : Coord) (s : String)
    (hattr : attrsGet c.attrs "standard_name" = some s)
    (_hne : s ≠ "")
    (hsub : s.data <:+: t.data) :
    check_axis c [axis] = true := by
  have h1 : critMember (standardNameCriteria axis) s = true := by
    rw [hcell]
    simpa [critMember] using strIn_of_infix s t hsub
  simp [check_axis, check_axis_one, stage1, hattr, h1]

/-- Witness for C9: a coordinate whose `standard_name` is `"im"`, a proper
substring of the `time` criteria string, matches the time kind. -/
theorem check_axis_of_standard_name_substring_witness :
    attrsGet imCoord.attrs "standard_name" = some "im" ∧ check_axis imCoord ["time"] = true := by
  refine ⟨by decide, ?_⟩
  exact check_axis_of_standard_name_substring "time" "time" rfl imCoord "im"
    (by decide) (by decide) (by decide)

/-! ## C5 -/

theorem unitsCriteria_nameSet_cases (axis : String) (l : List String)
    (h : unitsCriteria axis = some (.nameSet l)) :
    l = latUnitNames ∨ l = lonUnitNames := by
  unfold unitsCriteria at h
  split at h <;> simp_all

theorem parseUnit_isSome_of_mem_latUnitNames (s : String) (h : s ∈ latUnitNames) :
    parseUnit s ≠ none := by
  simp only [latUnitNames, List.mem_cons, List.not_mem_nil, or_false] at h
  rcases h with h | h | h | h | h | h <;> subst h <;> simp [parseUnit]

theorem parseUnit_isSome_of_mem_lonUnitNames (s : String) (h : s ∈ lonUnitNames) :
    parseUnit s ≠ none := by
  simp only [lonUnitNames, List.mem_cons, List.not_mem_nil, or_false] at h
  rcases h with h | h | h | h | h | h <;> subst h <;> simp [parseUnit]

/-- C5: a coordinate whose declared unit string is unparseable never makes
`check_axis` fail: the units criterion evaluates to non-matching (the
`UndefinedUnitError` is swallowed) and the overall result is exactly what the
remaining criteria — the four attribute criteria and the name regular
expression — decide, so the coordinate can still match via its name. -/
theorem check_axis_swallows_undefined_units (c : Coord) (axis s : String)
    (hu : attrsGet c.attrs "units" = some s)
    (hbad : parseUnit s = none) :
    stage2 c axis = false ∧
      check_axis c [axis] = (stage1 c axis || regexMatches axis (lowerString c.name)) := by
  have h2 : stage2 c axis = false := by
    unfold stage2
    cases hcrit : unitsCriteria axis with
    | none => rfl
    | some rule =>
      cases rule with
      | dimensionality ref => simp [hu, getDimensionality, hbad]
      | nameSet l =>
        rw [hu]
        have hnot : s ∉ l := by
          rcases unitsCriteria_nameSet_cases axis l hcrit with h | h <;> subst h
          · exact fun hm => parseUnit_isSome_of_mem_latUnitNames s hm hbad
          · exact fun hm => parseUnit_isSome_of_mem_lonUnitNames s hm hbad
        simpa using hnot
  exact ⟨h2, by simp [check_axis, check_axis_one, h2]⟩

/-- Witness for C5: a coordinate named `height` with unit string `furlongs`
still matches the vertical kind through its name. -/
theorem check_axis_swallows_undefined_units_witness :
    attrsGet furlongHeightCoord.attrs "units" = some "furlongs" ∧
      stage2 furlongHeightCoord "vertical" = false ∧
      check_axis furlongHeightCoord ["vertical"] =
        (stage1 furlongHeightCoord "vertical"
          || regexMatches "vertical" (lowerString furlongHeightCoord.name)) ∧
      check_axis furlongHeightCoord ["vertical"] = true := by
  have h := check_axis_swallows_undefined_units furlongHeightCoord "vertical" "furlongs"
    (by decide) (by decide)
  exact ⟨by decide, h.1, h.2, by decide⟩

/-! ## C7 -/

/-- C7: an axis identifier that is neither one of the four readable kinds nor a
dimension name nor a coordinate name fails with the `ValueError` of
`find_axis_name` (and, through the `_axis` accessor, with the
uninterpretable-axis `AttributeError`), leaving the coordinates and their marks
untouched. -/
theorem invalid_axis_identifier_fails (v : Variable) (ax : String)
    (h1 : lookupReadable ax = none)
    (_h2 : v.dims.contains ax = false)
    (h3 : v.coords.any (fun c => c.name == ax) = false) :
    find_axis_name v ax = ⟨.error .notValidValueError, v.coords, [], []⟩ ∧
      axisAccessor v ax = ⟨.error (.notInterpretable ax), v.coords, [], []⟩ := by
  constructor
  · simp [find_axis_name, h1, h3]
  · simp [axisAccessor, h1]

/-- Witness for C7 at the identifier `banana` on a one-coordinate variable. -/
theorem invalid_axis_identifier_fails_witness :
    lookupReadable "banana" = none ∧
      find_axis_name plainVar "banana" =
        ⟨.error .notValidValueError, plainVar.coords, [], []⟩ ∧
      axisAccessor plainVar "banana" =
        ⟨.error (.notInterpretable "banana"), plainVar.coords, [], []⟩ := by
  refine ⟨by decide, ?_⟩
  exact invalid_axis_identifier_fails plainVar "banana" (by decide) (by decide) (by decide)

/-! ## C10 -/

/-- C10: a cache hit is trusted unconditionally: whenever some coordinate carries
the requested `_metpy_axis` mark, `_metpy_axis_search` returns the first such
coordinate in iteration order, runs no matching criteria, performs no write and
emits no warning — regardless of whether the marked coordinate still satisfies
any criterion and regardless of duplicate marks. -/
theorem cache_hit_trusted (v : Variable) (cf : String)
    (h : hasMark v.coords cf = true) :
    metpy_axis_search v cf =
      ⟨(v.coords.find? (fun c => markOf c == some cf)).map Coord.name, v.coords, [], []⟩ := by
  have hex : ∃ c ∈ v.coords, (markOf c == some cf) = true := by
    simpa [hasMark] using h
  have hsome : (v.coords.find? (fun c => markOf c == some cf)).isSome := by
    rw [List.find?_isSome]
    exact hex
  obtain ⟨c, hc⟩ := Option.isSome_iff_exists.mp hsome
  unfold metpy_axis_search
  rw [hc]
  rfl

/-- Witness for C10: two coordinates both marked `T`; the first, which satisfies
no time criterion, is returned, and nothing is re-resolved. -/
theorem cache_hit_trusted_witness :
    hasMark staleMarkVar.coords "T" = true ∧
      metpy_axis_search staleMarkVar "T" = ⟨some "zzz", staleMarkVar.coords, [], []⟩ := by
  refine ⟨by decide, ?_⟩
  rw [cache_hit_trusted staleMarkVar "T" (by decide)]
  decide

/-! ## C2 -/

theorem resolve_conflict_proj (axis : String) (hax : axis = "Y" ∨ axis = "X")
    (lst : List Coord) (c : Coord)
    (hp : lst.filter (fun c => check_axis c ["x", "y"]) = [c]) :
    resolve_axis_conflict axis lst = ([c], false) := by
  have hax2 : (axis == "Y" || axis == "X") = true := by
    rcases hax with h | h <;> subst h <;> rfl
  simp only [resolve_axis_conflict, hax2, hp]
  simp

theorem resolve_conflict_dim_horizontal (axis : String) (hax : axis = "Y" ∨ axis = "X")
    (lst : List Coord)
    (hp : (lst.filter (fun c => check_axis c ["x", "y"])).length ≠ 1)
    (c : Coord) (hd : lst.filter (fun c => c.dims.contains c.name) = [c]) :
    resolve_axis_conflict axis lst = ([c], false) := by
  have hax2 : (axis == "Y" || axis == "X") = true := by
    rcases hax with h | h <;> subst h <;> rfl
  have hp2 : ((lst.filter (fun c => check_axis c ["x", "y"])).length == 1) = false := by
    simpa using hp
  simp only [resolve_axis_conflict, hax2, hp2, hd]
  simp

theorem resolve_conflict_ambiguous_horizontal (axis : String) (hax : axis = "Y" ∨ axis = "X")
    (lst : List Coord)
    (hp : (lst.filter (fun c => check_axis c ["x", "y"])).length ≠ 1)
    (hd : (lst.filter (fun c => c.dims.contains c.name)).length ≠ 1) :
    resolve_axis_conflict axis lst = ([], true) := by
  have hax2 : (axis == "Y" || axis == "X") = true := by
    rcases hax with h | h <;> subst h <;> rfl
  have hp2 : ((lst.filter (fun c => check_axis c ["x", "y"])).length == 1) = false := by
    simpa using hp
  have hd2 : ((lst.filter (fun c => c.dims.contains c.name)).length == 1) = false := by
    simpa using hd
  simp only [resolve_axis_conflict, hax2, hp2, hd2]
  simp

theorem mem_axisWarn (v : Variable) (cf : String) (rs : List String) (p : String × String)
    (hp : p ∈ axisWarn v cf rs) : p = (cfToReadable cf, v.name) := by
  simp only [axisWarn] at hp
  split at hp
  · simpa using hp
  · simp at hp

theorem not_mem_axisWarn (v : Variable) (cf : String) (rs : List String) (a b : String)
    (hq : a ≠ cfToReadable cf) : (a, b) ∉ axisWarn v cf rs := by
  intro hm
  have h := mem_axisWarn v cf rs (a, b) hm
  injection h with h1 _
  exact hq h1

theorem count_axisWarn_eq_zero (v : Variable) (cf : String) (rs : List String)
    (a b : String) (hq : a ≠ cfToReadable cf) :
    (axisWarn v cf rs).count (a, b) = 0 := by
  rw [List.count_eq_zero]
  exact not_mem_axisWarn v cf rs a b hq

theorem axisWarn_eq_singleton (v : Variable) (cf : String) (rs : List String)
    (hlen : (axisCandidates v rs).length > 1)
    (hw : (resolve_axis_conflict cf (axisCandidates v rs)).2 = true) :
    axisWarn v cf rs = [(cfToReadable cf, v.name)] := by
  simp [axisWarn, hlen, hw]

theorem axisWarn_eq_nil_of_not_warned (v : Variable) (cf : String) (rs : List String)
    (hw : (resolve_axis_conflict cf (axisCandidates v rs)).2 = false) :
    axisWarn v cf rs = [] := by
  simp [axisWarn, hw]

theorem axisResolved_of_conflict (v : Variable) (cf : String) (rs : List String)
    (hlen : (axisCandidates v rs).length > 1) :
    axisResolved v cf rs = (resolve_axis_conflict cf (axisCandidates v rs)).1 := by
  simp [axisResolved, hlen]

/-- C2: for a horizontal kind with at least two candidates, resolution prefers a
unique projection coordinate (without warning), otherwise a unique dimension
coordinate (without warning), and otherwise resolves the kind to no coordinate
while emitting exactly one warning carrying the readable kind and the variable
name. -/
theorem horizontal_conflict_tiebreak (v : Variable) (cf : String) (readables : List String)
    (hcf : (cf = "Y" ∧ readables = ["y", "lat"]) ∨ (cf = "X" ∧ readables = ["x", "lon"]))
    (h2 : 2 ≤ (axisCandidates v readables).length) :
    (∀ c, (axisCandidates v readables).filter (fun c => check_axis c ["x", "y"]) = [c] →
        lookupCF (generate_coordinate_map v).1 cf = some c ∧
        (cfToReadable cf, v.name) ∉ (generate_coordinate_map v).2) ∧
    (((axisCandidates v readables).filter (fun c => check_axis c ["x", "y"])).length ≠ 1 →
      ∀ c, (axisCandidates v readables).filter (fun c => c.dims.contains c.name) = [c] →
        lookupCF (generate_coordinate_map v).1 cf = some c ∧
        (cfToReadable cf, v.name) ∉ (generate_coordinate_map v).2) ∧
    (((axisCandidates v readables).filter (fun c => check_axis c ["x", "y"])).length ≠ 1 →
      ((axisCandidates v readables).filter (fun c => c.dims.contains c.name)).length ≠ 1 →
        lookupCF (generate_coordinate_map v).1 cf = none ∧
        (generate_coordinate_map v).2.count (cfToReadable cf, v.name) = 1) := by
  have hlen : (axisCandidates v readables).length > 1 := h2
  rcases hcf with ⟨hc, hr⟩ | ⟨hc, hr⟩ <;> subst hc <;> subst hr
  · -- cf = "Y"
    have hlook : lookupCF (generate_coordinate_map v).1 "Y" =
        (axisResolved v "Y" ["y", "lat"]).head? := rfl
    have hsnd : (generate_coordinate_map v).2 =
        axisWarn v "T" ["time"] ++ axisWarn v "Z" ["vertical"]
          ++ axisWarn v "Y" ["y", "lat"] ++ axisWarn v "X" ["x", "lon"] := rfl
    refine ⟨?_, ?_, ?_⟩
    · intro c hproj
      have hres := resolve_conflict_proj "Y" (Or.inl rfl) _ c hproj
      have hnil : axisWarn v "Y" ["y", "lat"] = [] :=
        axisWarn_eq_nil_of_not_warned v "Y" _ (by rw [hres])
      refine ⟨?_, ?_⟩
      · rw [hlook, axisResolved_of_conflict v "Y" _ hlen, hres]
        rfl
      · rw [hsnd, hnil]
        simp only [List.append_nil, List.mem_append, not_or]
        exact ⟨⟨not_mem_axisWarn v "T" _ _ v.name (by decide),
               not_mem_axisWarn v "Z" _ _ v.name (by decide)⟩,
               not_mem_axisWarn v "X" _ _ v.name (by decide)⟩
    · intro hp c hdim
      have hres := resolve_conflict_dim_horizontal "Y" (Or.inl rfl) _ hp c hdim
      have hnil : axisWarn v "Y" ["y", "lat"] = [] :=
        axisWarn_eq_nil_of_not_warned v "Y" _ (by rw [hres])
      refine ⟨?_, ?_⟩
      · rw [hlook, axisResolved_of_conflict v "Y" _ hlen, hres]
        rfl
      · rw [hsnd, hnil]
        simp only [List.append_nil, List.mem_append, not_or]
        exact ⟨⟨not_mem_axisWarn v "T" _ _ v.name (by decide),
               not_mem_axisWarn v "Z" _ _ v.name (by decide)⟩,
               not_mem_axisWarn v "X" _ _ v.name (by decide)⟩
    · intro hp hd
      have hres := resolve_conflict_ambiguous_horizontal "Y" (Or.inl rfl) _ hp hd
      refine ⟨?_, ?_⟩
      · rw [hlook, axisResolved_of_conflict v "Y" _ hlen, hres]
        rfl
      · rw [hsnd, axisWarn_eq_singleton v "Y" _ hlen (by rw [hres])]
        have c0T := count_axisWarn_eq_zero v "T" ["time"] (cfToReadable "Y") v.name (by decide)
        have c0Z := count_axisWarn_eq_zero v "Z" ["vertical"] (cfToReadable "Y") v.name (by decide)
        have c0X := count_axisWarn_eq_zero v "X" ["x", "lon"] (cfToReadable "Y") v.name (by decide)
        simp [List.count_append, c0T, c0Z, c0X]
  · -- cf = "X"
    have hlook : lookupCF (generate_coordinate_map v).1 "X" =
        (axisResolved v "X" ["x", "lon"]).head? := rfl
    have hsnd : (generate_coordinate_map v).2 =
        axisWarn v "T" ["time"] ++ axisWarn v "Z" ["vertical"]
          ++ axisWarn v "Y" ["y", "lat"] ++ axisWarn v "X" ["x", "lon"] := rfl
    refine ⟨?_, ?_, ?_⟩
    · intro c hproj
      have hres := resolve_conflict_proj "X" (Or.inr rfl) _ c hproj
      have hnil : axisWarn v "X" ["x", "lon"] = [] :=
        axisWarn_eq_nil_of_not_warned v "X" _ (by rw [hres])
      refine ⟨?_, ?_⟩
      · rw [hlook, axisResolved_of_conflict v "X" _ hlen, hres]
        rfl
      · rw [hsnd, hnil]
        simp only [List.append_nil, List.mem_append, not_or]
        exact ⟨⟨not_mem_axisWarn v "T" _ (cfToReadable "X") v.name (by decide),
               not_mem_axisWarn v "Z" _ (cfToReadable "X") v.name (by decide)⟩,
               not_mem_axisWarn v "Y" _ (cfToReadable "X") v.name (by decide)⟩
    · intro hp c hdim
      have hres := resolve_conflict_dim_horizontal "X" (Or.inr rfl) _ hp c hdim
      have hnil : axisWarn v "X" ["x", "lon"] = [] :=
        axisWarn_eq_nil_of_not_warned v "X" _ (by rw [hres])
      refine ⟨?_, ?_⟩
      · rw [hlook, axisResolved_of_conflict v "X" _ hlen, hres]
        rfl
      · rw [hsnd, hnil]
        simp only [List.append_nil, List.mem_append, not_or]
        exact ⟨⟨not_mem_axisWarn v "T" _ (cfToReadable "X") v.name (by decide),
               not_mem_axisWarn v "Z" _ (cfToReadable "X") v.name (by decide)⟩,
               not_mem_axisWarn v "Y" _ (cfToReadable "X") v.name (by decide)⟩
    · intro hp hd
      have hres := resolve_conflict_ambiguous_horizontal "X" (Or.inr rfl) _ hp hd
      refine ⟨?_, ?_⟩
      · rw [hlook, axisResolved_of_conflict v "X" _ hlen, hres]
        rfl
      · rw [hsnd, axisWarn_eq_singleton v "X" _ hlen (by rw [hres])]
        have c0T := count_axisWarn_eq_zero v "T" ["time"] (cfToReadable "X") v.name (by decide)
        have c0Z := count_axisWarn_eq_zero v "Z" ["vertical"] (cfToReadable "X") v.name (by decide)
        have c0Y := count_axisWarn_eq_zero v "Y" ["y", "lat"] (cfToReadable "X") v.name (by decide)
        simp [List.count_append, c0T, c0Z, c0Y]

/-! ## Cache-write machinery shared by the mark-related claims -/

theorem attrsGet_map_update_same (a : List (String × String)) (k v : String)
    (hany : a.any (fun p => p.1 == k) = true) :
    attrsGet (a.map (fun p => if p.1 == k then (k, v) else p)) k = some v := by
  induction a with
  | nil => cases hany
  | cons p rest ih =>
    by_cases hp : p.1 = k
    · have hpb : (p.1 == k) = true := beq_iff_eq.mpr hp
      simp only [List.map_cons, hpb, if_true, attrsGet, List.find?, beq_self_eq_true]
      rfl
    · have hpb : (p.1 == k) = false := beq_eq_false_iff_ne.mpr hp
      have hr : rest.any (fun p => p.1 == k) = true := by
        simpa [hpb] using hany
      simp only [List.map_cons, hpb, Bool.false_eq_true, if_false, attrsGet, List.find?]
      simpa only [attrsGet] using ih hr

theorem attrsGet_map_update_other (a : List (String × String)) (k v k2 : String)
    (h : k2 ≠ k) :
    attrsGet (a.map (fun p => if p.1 == k then (k, v) else p)) k2 = attrsGet a k2 := by
  induction a with
  | nil => rfl
  | cons p rest ih =>
    by_cases hp : p.1 = k
    · have hpb : (p.1 == k) = true := beq_iff_eq.mpr hp
      have hkk2 : ((k : String) == k2) = false := beq_eq_false_iff_ne.mpr (Ne.symm h)
      have hpk2 : (p.1 == k2) = false := by
        rw [hp]; exact hkk2
      simp only [List.map_cons, hpb, if_true, attrsGet, List.find?, hkk2, hpk2]
      simpa only [attrsGet] using ih
    · have hpb : (p.1 == k) = false := beq_eq_false_iff_ne.mpr hp
      by_cases hq : p.1 = k2
      · have hq2 : (p.1 == k2) = true := beq_iff_eq.mpr hq
        simp only [List.map_cons, hpb, Bool.false_eq_true, if_false, attrsGet, List.find?, hq2]
      · have hq2 : (p.1 == k2) = false := beq_eq_false_iff_ne.mpr hq
        simp only [List.map_cons, hpb, Bool.false_eq_true, if_false, attrsGet, List.find?, hq2]
        simpa only [attrsGet] using ih

theorem attrsGet_append_single_same (a : List (String × String)) (k v : String)
    (hnone : attrsGet a k = none) :
    attrsGet (a ++ [(k, v)]) k = some v := by
  induction a with
  | nil => simp only [List.nil_append, attrsGet, List.find?, beq_self_eq_true]; rfl
  | cons p rest ih =>
    by_cases hp : p.1 = k
    · exfalso
      have : attrsGet (p :: rest) k = some p.2 := by
        have hpb : (p.1 == k) = true := beq_iff_eq.mpr hp
        simp only [attrsGet, List.find?, hpb]
        rfl
      rw [hnone] at this
      cases this
    · have hpb : (p.1 == k) = false := beq_eq_false_iff_ne.mpr hp
      have hrest : attrsGet rest k = none := by
        simpa only [attrsGet, List.find?, hpb] using hnone
      simp only [List.cons_append, attrsGet, List.find?, hpb]
      simpa only [attrsGet] using ih hrest

theorem attrsGet_append_single_other (a : List (String × String)) (k v k2 : String)
    (h : k2 ≠ k) :
    attrsGet (a ++ [(k, v)]) k2 = attrsGet a k2 := by
  induction a with
  | nil =>
    have hkk2 : ((k : String) == k2) = false := beq_eq_false_iff_ne.mpr (Ne.symm h)
    simp only [List.nil_append, attrsGet, List.find?, hkk2]
  | cons p rest ih =>
    by_cases hp : p.1 = k2
    · have hp2 : (p.1 == k2) = true := beq_iff_eq.mpr hp
      simp only [List.cons_append, attrsGet, List.find?, hp2]
    · have hp2 : (p.1 == k2) = false := beq_eq_false_iff_ne.mpr hp
      simp only [List.cons_append, attrsGet, List.find?, hp2]
      simpa only [attrsGet] using ih

theorem attrsGet_attrsSet_same (a : List (String × String)) (k v : String) :
    attrsGet (attrsSet a k v) k = some v := by
  unfold attrsSet
  by_cases hany : a.any (fun p => p.1 == k) = true
  · rw [if_pos hany]
    exact attrsGet_map_update_same a k v hany
  · rw [if_neg hany]
    apply attrsGet_append_single_same
    have hfind : List.find? (fun p => p.1 == k) a = none := by
      rw [List.find?_eq_none]
      intro p hp hb
      exact hany (List.any_eq_true.mpr ⟨p, hp, hb⟩)
    simp [attrsGet, hfind]

theorem attrsGet_attrsSet_other (a : List (String × String)) (k v k2 : String) (h : k2 ≠ k) :
    attrsGet (attrsSet a k v) k2 = attrsGet a k2 := by
  unfold attrsSet
  by_cases hany : a.any (fun p => p.1 == k) = true
  · rw [if_pos hany]
    exact attrsGet_map_update_other a k v k2 h
  · rw [if_neg hany]
    exact attrsGet_append_single_other a k v k2 h

theorem markOf_attrsSet_mark (c : Coord) (K : String) :
    markOf { c with attrs := attrsSet c.attrs "_metpy_axis" K } = some K := by
  simp [markOf, attrsGet_attrsSet_same]

theorem coordShadow_refl (ws : List (String × String)) (c : Coord) : coordShadow ws c c :=
  ⟨rfl, rfl, fun _ _ => rfl, Or.inl rfl⟩

theorem coordShadow_trans (ws1 ws2 : List (String × String)) (a b c : Coord)
    (h1 : coordShadow ws1 a b) (h2 : coordShadow ws2 b c) :
    coordShadow (ws1 ++ ws2) a c := by
  obtain ⟨hn1, hd1, ha1, hm1⟩ := h1
  obtain ⟨hn2, hd2, ha2, hm2⟩ := h2
  refine ⟨hn2.trans hn1, hd2.trans hd1, fun k hk => (ha2 k hk).trans (ha1 k hk), ?_⟩
  rcases hm2 with hm2 | ⟨K, hK, hmk⟩
  · rcases hm1 with hm1 | ⟨K, hK, hmk⟩
    · exact Or.inl (hm2.trans hm1)
    · exact Or.inr ⟨K, List.mem_append_left _ (by rwa [hn2]), hm2.trans hmk⟩
  · exact Or.inr ⟨K, List.mem_append_right _ hK, hmk⟩

theorem coordShadow_mono {ws1 ws2 : List (String × String)} (hsub : ∀ x ∈ ws1, x ∈ ws2)
    {a b : Coord} (h : coordShadow ws1 a b) : coordShadow ws2 a b := by
  obtain ⟨hn, hd, ha, hm⟩ := h
  refine ⟨hn, hd, ha, ?_⟩
  rcases hm with hm | ⟨K, hK, hmk⟩
  · exact Or.inl hm
  · exact Or.inr ⟨K, hsub _ hK, hmk⟩

theorem forall₂_comp {α β γ : Type} {R : α → β → Prop} {S : β → γ → Prop} {T : α → γ → Prop}
    (h : ∀ a b c, R a b → S b c → T a c) :
    ∀ {l : List α} {m : List β} {n : List γ},
      List.Forall₂ R l m → List.Forall₂ S m n → List.Forall₂ T l n := by
  intro l m n h1
  induction h1 generalizing n with
  | nil => intro h2; cases h2; exact .nil
  | cons hr hrest ih =>
    intro h2
    cases h2 with
    | cons hs hrest2 => exact .cons (h _ _ _ hr hs) (ih hrest2)

theorem forall₂_mem_right {α β : Type} {R : α → β → Prop} :
    ∀ {l : List α} {l2 : List β}, List.Forall₂ R l l2 → ∀ b ∈ l2, ∃ a ∈ l, R a b := by
  intro l l2 h
  induction h with
  | nil => intro b hb; cases hb
  | cons hr _ ih =>
    intro b hb
    rcases List.mem_cons.mp hb with hb | hb
    · exact ⟨_, List.mem_cons_self _ _, hb ▸ hr⟩
    · obtain ⟨a, ha, hra⟩ := ih b hb
      exact ⟨a, List.mem_cons_of_mem _ ha, hra⟩

theorem setMark_shadow (coords : List Coord) (n K : String) :
    List.Forall₂ (coordShadow [(n, K)]) coords (setMark coords n K) := by
  unfold setMark
  induction coords with
  | nil => exact .nil
  | cons a rest ih =>
    simp only [List.map_cons]
    refine .cons ?_ ih
    by_cases h : a.name == n
    · rw [if_pos h]
      refine ⟨rfl, rfl, fun k hk => attrsGet_attrsSet_other _ _ _ _ hk, Or.inr ⟨K, ?_, ?_⟩⟩
      · have : a.name = n := by simpa using h
        simp [this]
      · exact markOf_attrsSet_mark a K
    · rw [if_neg h]
      exact coordShadow_refl _ a

theorem writeMarks_shadow (cmap : List (String × Option Coord)) (coords : List Coord) :
    List.Forall₂ (coordShadow (writeMarks coords cmap).2) coords (writeMarks coords cmap).1 := by
  induction cmap generalizing coords with
  | nil =>
    simp only [writeMarks]
    exact List.forall₂_same.mpr (fun c _ => coordShadow_refl [] c)
  | cons e rest ih =>
    match he : e.2 with
    | none =>
      simp only [writeMarks, he]
      exact ih coords
    | some c =>
      cases hg : hasMark coords e.1 with
      | true =>
        simp only [writeMarks, he, hg, if_true]
        exact ih coords
      | false =>
        simp only [writeMarks, he, hg, Bool.false_eq_true, if_false]
        have step1 := setMark_shadow coords c.name e.1
        have step2 := ih (setMark coords c.name e.1)
        refine forall₂_comp (T := coordShadow
            ((c.name, e.1) :: (writeMarks (setMark coords c.name e.1) rest).2)) ?_ step1 step2
        intro a b c2 h1 h2
        have := coordShadow_trans _ _ a b c2 h1 h2
        exact coordShadow_mono (by intro x hx; simpa using hx) this

theorem writeMarks_writes_kinds (cmap : List (String × Option Coord)) (coords : List Coord) :
    ∀ w ∈ (writeMarks coords cmap).2,
      ∃ e ∈ cmap, ∃ c, e.2 = some c ∧ w = (c.name, e.1) := by
  induction cmap generalizing coords with
  | nil => intro w hw; simp [writeMarks] at hw
  | cons e rest ih =>
    intro w hw
    match he : e.2 with
    | none =>
      rw [writeMarks, he] at hw
      obtain ⟨e2, he2, hc⟩ := ih coords w hw
      exact ⟨e2, List.mem_cons_of_mem _ he2, hc⟩
    | some c =>
      cases hg : hasMark coords e.1 with
      | true =>
        simp only [writeMarks, he, hg, if_true] at hw
        obtain ⟨e2, he2, hc⟩ := ih coords w hw
        exact ⟨e2, List.mem_cons_of_mem _ he2, hc⟩
      | false =>
        simp only [writeMarks, he, hg, Bool.false_eq_true, if_false] at hw
        rcases List.mem_cons.mp hw with hw | hw
        · exact ⟨e, List.mem_cons_self _ _, c, he, hw⟩
        · obtain ⟨e2, he2, hc⟩ := ih _ w hw
          exact ⟨e2, List.mem_cons_of_mem _ he2, hc⟩

theorem writeMarks_skip_all (cmap : List (String × Option Coord)) (coords : List Coord)
    (h : ∀ e ∈ cmap, ∀ c : Coord, e.2 = some c → hasMark coords e.1 = true) :
    writeMarks coords cmap = (coords, []) := by
  induction cmap with
  | nil => rfl
  | cons e rest ih =>
    match he : e.2 with
    | none =>
      rw [writeMarks, he]
      exact ih (fun e2 he2 c hc => h e2 (List.mem_cons_of_mem _ he2) c hc)
    | some c =>
      simp only [writeMarks, he, h e (List.mem_cons_self _ _) c he, if_true]
      exact ih (fun e2 he2 c hc => h e2 (List.mem_cons_of_mem _ he2) c hc)

/-! ## Resolution only reads name, dims and non-mark attributes -/

theorem check_axis_congr (ws : List (String × String)) (c c2 : Coord)
    (h : coordShadow ws c c2) (axes : List String) :
    check_axis c2 axes = check_axis c axes := by
  obtain ⟨hn, _, ha, _⟩ := h
  simp only [check_axis, check_axis_one, stage1, stage2, regexMatches,
    ha "standard_name" (by decide), ha "_CoordinateAxisType" (by decide),
    ha "axis" (by decide), ha "positive" (by decide), ha "units" (by decide), hn]

theorem forall₂_filter_congr {R : Coord → Coord → Prop} {p : Coord → Bool}
    (hpq : ∀ a b, R a b → p b = p a) :
    ∀ {l l2 : List Coord}, List.Forall₂ R l l2 →
      List.Forall₂ R (l.filter p) (l2.filter p) := by
  intro l l2 h
  induction h with
  | nil => exact .nil
  | cons hr hrest ih =>
    rename_i a b l1 l3
    have hb : p b = p a := hpq a b hr
    cases hpa : p a with
    | true =>
      rw [hpa] at hb
      simp only [List.filter_cons, hpa, hb, if_true]
      exact .cons hr ih
    | false =>
      rw [hpa] at hb
      simp only [List.filter_cons, hpa, hb, Bool.false_eq_true, if_false]
      exact ih

theorem candidates_congr (ws : List (String × String)) (v v2 : Variable)
    (hc : List.Forall₂ (coordShadow ws) v.coords v2.coords) (rs : List String) :
    List.Forall₂ (coordShadow ws) (axisCandidates v rs) (axisCandidates v2 rs) :=
  forall₂_filter_congr (fun a b hr => check_axis_congr ws a b hr rs) hc

theorem resolve_conflict_congr (ws : List (String × String)) (axis : String)
    {l l2 : List Coord} (h : List.Forall₂ (coordShadow ws) l l2) :
    List.Forall₂ (coordShadow ws) (resolve_axis_conflict axis l).1
        (resolve_axis_conflict axis l2).1 ∧
      (resolve_axis_conflict axis l2).2 = (resolve_axis_conflict axis l).2 := by
  have hproj : List.Forall₂ (coordShadow ws)
      (l.filter (fun c => check_axis c ["x", "y"]))
      (l2.filter (fun c => check_axis c ["x", "y"])) :=
    forall₂_filter_congr (fun a b hr => check_axis_congr ws a b hr _) h
  have hdim : List.Forall₂ (coordShadow ws)
      (l.filter (fun c => c.dims.contains c.name))
      (l2.filter (fun c => c.dims.contains c.name)) :=
    forall₂_filter_congr (fun a b hr => by
      obtain ⟨hn, hd, _, _⟩ := hr
      simp only [hn, hd]) h
  have hplen := hproj.length_eq
  have hdlen := hdim.length_eq
  unfold resolve_axis_conflict
  cases hax : (axis == "Y" || axis == "X") with
  | true =>
    simp only [eq_self_iff_true, if_true, ← hplen]
    cases hp1 : ((l.filter (fun c => check_axis c ["x", "y"])).length == 1) with
    | true =>
      simp only [eq_self_iff_true, if_true]
      exact ⟨hproj, trivial⟩
    | false =>
      simp only [Bool.false_eq_true, if_false, ← hdlen]
      cases hd1 : ((l.filter (fun c => c.dims.contains c.name)).length == 1) with
      | true =>
        simp only [eq_self_iff_true, if_true]
        exact ⟨hdim, trivial⟩
      | false =>
        simp only [Bool.false_eq_true, if_false]
        exact ⟨.nil, trivial⟩
  | false =>
    simp only [Bool.false_eq_true, if_false, ← hdlen]
    cases hd1 : ((l.filter (fun c => c.dims.contains c.name)).length == 1) with
    | true =>
      simp only [eq_self_iff_true, if_true]
      exact ⟨hdim, trivial⟩
    | false =>
      simp only [Bool.false_eq_true, if_false]
      exact ⟨.nil, trivial⟩

theorem axisResolved_congr (ws : List (String × String)) (v v2 : Variable)
    (hc : List.Forall₂ (coordShadow ws) v.coords v2.coords) (cf : String) (rs : List String) :
    List.Forall₂ (coordShadow ws) (axisResolved v cf rs) (axisResolved v2 cf rs) := by
  have hcand := candidates_congr ws v v2 hc rs
  have hlen := hcand.length_eq
  unfold axisResolved
  by_cases hgt : (axisCandidates v rs).length > 1
  · rw [if_pos hgt, if_pos (by rw [← hlen]; exact hgt)]
    exact (resolve_conflict_congr ws cf hcand).1
  · rw [if_neg hgt, if_neg (by rw [← hlen]; exact hgt)]
    exact hcand

theorem axisWarn_congr (ws : List (String × String)) (v v2 : Variable)
    (hname : v2.name = v.name)
    (hc : List.Forall₂ (coordShadow ws) v.coords v2.coords) (cf : String) (rs : List String) :
    axisWarn v2 cf rs = axisWarn v cf rs := by
  have hcand := candidates_congr ws v v2 hc rs
  have hlen := hcand.length_eq
  have hwarn := (resolve_conflict_congr ws cf hcand).2
  simp only [axisWarn]
  rw [← hlen, hwarn, hname]

theorem head?_name_congr (ws : List (String × String)) {l l2 : List Coord}
    (h : List.Forall₂ (coordShadow ws) l l2) :
    l2.head?.map Coord.name = l.head?.map Coord.name := by
  cases h with
  | nil => rfl
  | cons hr _ => simp [hr.1]

theorem gcm_names_congr (ws : List (String × String)) (v v2 : Variable)
    (hname : v2.name = v.name)
    (hc : List.Forall₂ (coordShadow ws) v.coords v2.coords) :
    (∀ cf, (lookupCF (generate_coordinate_map v2).1 cf).map Coord.name =
        (lookupCF (generate_coordinate_map v).1 cf).map Coord.name) ∧
      (generate_coordinate_map v2).2 = (generate_coordinate_map v).2 := by
  constructor
  · intro cf
    have hT := head?_name_congr ws (axisResolved_congr ws v v2 hc "T" ["time"])
    have hZ := head?_name_congr ws (axisResolved_congr ws v v2 hc "Z" ["vertical"])
    have hY := head?_name_congr ws (axisResolved_congr ws v v2 hc "Y" ["y", "lat"])
    have hX := head?_name_congr ws (axisResolved_congr ws v v2 hc "X" ["x", "lon"])
    simp only [generate_coordinate_map, lookupCF, List.find?]
    cases h1 : (("T" : String) == cf) with
    | true => simpa using hT
    | false =>
      cases h2 : (("Z" : String) == cf) with
      | true => simpa using hZ
      | false =>
        cases h3 : (("Y" : String) == cf) with
        | true => simpa using hY
        | false =>
          cases h4 : (("X" : String) == cf) with
          | true => simpa using hX
          | false => rfl
  · simp only [generate_coordinate_map]
    rw [axisWarn_congr ws v v2 hname hc "T" ["time"],
        axisWarn_congr ws v v2 hname hc "Z" ["vertical"],
        axisWarn_congr ws v v2 hname hc "Y" ["y", "lat"],
        axisWarn_congr ws v v2 hname hc "X" ["x", "lon"]]

/-! ## C6 -/

theorem resolve_conflict_ambiguous_nonhorizontal (axis : String)
    (hax : (axis == "Y" || axis == "X") = false)
    (lst : List Coord)
    (hd : (lst.filter (fun c => c.dims.contains c.name)).length ≠ 1) :
    resolve_axis_conflict axis lst = ([], true) := by
  have hd2 : ((lst.filter (fun c => c.dims.contains c.name)).length == 1) = false := by
    simpa using hd
  simp only [resolve_axis_conflict, hax, hd2]
  simp

theorem hasMark_false_find?_none (coords : List Coord) (cf : String)
    (h : hasMark coords cf = false) :
    coords.find? (fun c => markOf c == some cf) = none := by
  rw [List.find?_eq_none]
  intro c hcmem hb
  have : hasMark coords cf = true := List.any_eq_true.mpr ⟨c, hcmem, hb⟩
  rw [h] at this
  cases this

theorem ambiguous_axis_core (v : Variable) (cf : String) (readables : List String)
    (hkeyeq : lookupCF (generate_coordinate_map v).1 cf = (axisResolved v cf readables).head?)
    (hreadable : lookupReadable (cfToReadable cf) = some cf)
    (hres : resolve_axis_conflict cf (axisCandidates v readables) = ([], true))
    (hmem : (cfToReadable cf, v.name) ∈ (generate_coordinate_map v).2)
    (hwkey : ∀ e ∈ (generate_coordinate_map v).1, e.1 = cf →
      e.2 = (axisResolved v cf readables).head?)
    (h2 : 2 ≤ (axisCandidates v readables).length)
    (hnomark : hasMark v.coords cf = false) :
    (metpy_axis_search v cf).result = none ∧
    (cfToReadable cf, v.name) ∈ (metpy_axis_search v cf).warnings ∧
    (∀ w ∈ (metpy_axis_search v cf).writes, w.2 ≠ cf) ∧
    (axisAccessor { v with coords := (metpy_axis_search v cf).coords }
        (cfToReadable cf)).result = .error (.notAvailable (cfToReadable cf)) := by
  have hlen : (axisCandidates v readables).length > 1 := h2
  have hresolved : axisResolved v cf readables = [] := by
    rw [axisResolved_of_conflict v cf readables hlen, hres]
  have hlcf : lookupCF (generate_coordinate_map v).1 cf = none := by
    rw [hkeyeq, hresolved]
    rfl
  have hfind := hasMark_false_find?_none v.coords cf hnomark
  have hsearch : metpy_axis_search v cf =
      ⟨none, (writeMarks v.coords (generate_coordinate_map v).1).1,
        (writeMarks v.coords (generate_coordinate_map v).1).2,
        (generate_coordinate_map v).2⟩ := by
    simp only [metpy_axis_search, hfind, hlcf, Option.map_none']
  have hwrites : ∀ w ∈ (writeMarks v.coords (generate_coordinate_map v).1).2, w.2 ≠ cf := by
    intro w hw heqcf
    obtain ⟨e, he, c, hec, hwc⟩ :=
      writeMarks_writes_kinds (generate_coordinate_map v).1 v.coords w hw
    have he1 : e.1 = cf := by rw [hwc] at heqcf; exact heqcf
    have := hwkey e he he1
    rw [hresolved] at this
    rw [this] at hec
    cases hec
  refine ⟨by rw [hsearch], by rw [hsearch]; exact hmem, by rw [hsearch]; exact hwrites, ?_⟩
  -- the subsequent request
  have hshadow := writeMarks_shadow (generate_coordinate_map v).1 v.coords
  have hnomark2 : hasMark (writeMarks v.coords (generate_coordinate_map v).1).1 cf = false := by
    cases hh : hasMark (writeMarks v.coords (generate_coordinate_map v).1).1 cf with
    | false => rfl
    | true =>
      exfalso
      obtain ⟨c2, hc2mem, hb⟩ := List.any_eq_true.mp hh
      obtain ⟨c, hcmem, hrel⟩ := forall₂_mem_right hshadow c2 hc2mem
      rcases hrel.2.2.2 with hsame | ⟨K, hKmem, hK⟩
      · have : hasMark v.coords cf = true :=
          List.any_eq_true.mpr ⟨c, hcmem, by rw [← hsame]; exact hb⟩
        rw [hnomark] at this
        cases this
      · have hKcf : K = cf := by
          rw [hK] at hb
          simpa using hb
        exact hwrites (c2.name, K) hKmem (by simpa using hKcf)
  have hfind2 := hasMark_false_find?_none _ cf hnomark2
  have hcoords : (metpy_axis_search v cf).coords =
      (writeMarks v.coords (generate_coordinate_map v).1).1 := by rw [hsearch]
  have hcong := gcm_names_congr (writeMarks v.coords (generate_coordinate_map v).1).2 v
    { v with coords := (writeMarks v.coords (generate_coordinate_map v).1).1 } rfl hshadow
  have hlcf2 : (lookupCF (generate_coordinate_map
      { v with coords := (writeMarks v.coords (generate_coordinate_map v).1).1 }).1 cf).map
        Coord.name = none := by
    rw [hcong.1 cf, hlcf]
    rfl
  have hres2 : (metpy_axis_search
      { v with coords := (writeMarks v.coords (generate_coordinate_map v).1).1 } cf).result
        = none := by
    simp only [metpy_axis_search, hfind2, hlcf2]
  rw [hcoords]
  simp only [axisAccessor, hreadable, hres2]

/-- C6: a kind left with two or more undisambiguated candidates resolves to
nothing: the lookup reports the kind absent, emits a warning naming the readable
kind and the variable, writes no cache mark of that kind onto any coordinate,
and a subsequent request for the kind surfaces the addressable "attribute is not
available" error. -/
theorem ambiguous_axis_recoverable (v : Variable) (cf : String) (readables : List String)
    (hcf : (cf = "T" ∧ readables = ["time"]) ∨ (cf = "Z" ∧ readables = ["vertical"]) ∨
      (cf = "Y" ∧ readables = ["y", "lat"]) ∨ (cf = "X" ∧ readables = ["x", "lon"]))
    (h2 : 2 ≤ (axisCandidates v readables).length)
    (hproj : (cf = "Y" ∨ cf = "X") →
      ((axisCandidates v readables).filter (fun c => check_axis c ["x", "y"])).length ≠ 1)
    (hdim : ((axisCandidates v readables).filter (fun c => c.dims.contains c.name)).length ≠ 1)
    (hnomark : hasMark v.coords cf = false) :
    (metpy_axis_search v cf).result = none ∧
    (cfToReadable cf, v.name) ∈ (metpy_axis_search v cf).warnings ∧
    (∀ w ∈ (metpy_axis_search v cf).writes, w.2 ≠ cf) ∧
    (axisAccessor { v with coords := (metpy_axis_search v cf).coords }
        (cfToReadable cf)).result = .error (.notAvailable (cfToReadable cf)) := by
  have hlen : (axisCandidates v readables).length > 1 := h2
  have hres : resolve_axis_conflict cf (axisCandidates v readables) = ([], true) := by
    rcases hcf with ⟨h1, hr⟩ | ⟨h1, hr⟩ | ⟨h1, hr⟩ | ⟨h1, hr⟩ <;> subst h1 <;> subst hr
    · exact resolve_conflict_ambiguous_nonhorizontal "T" rfl _ hdim
    · exact resolve_conflict_ambiguous_nonhorizontal "Z" rfl _ hdim
    · exact resolve_conflict_ambiguous_horizontal "Y" (Or.inl rfl) _ (hproj (Or.inl rfl)) hdim
    · exact resolve_conflict_ambiguous_horizontal "X" (Or.inr rfl) _ (hproj (Or.inr rfl)) hdim
  have hsing : axisWarn v cf readables = [(cfToReadable cf, v.name)] :=
    axisWarn_eq_singleton v cf readables hlen (by rw [hres])
  refine ambiguous_axis_core v cf readables ?_ ?_ hres ?_ ?_ h2 hnomark
  · rcases hcf with ⟨h1, hr⟩ | ⟨h1, hr⟩ | ⟨h1, hr⟩ | ⟨h1, hr⟩ <;> subst h1 <;> subst hr <;> rfl
  · rcases hcf with ⟨h1, hr⟩ | ⟨h1, hr⟩ | ⟨h1, hr⟩ | ⟨h1, hr⟩ <;> subst h1 <;> subst hr <;> rfl
  · rcases hcf with ⟨h1, hr⟩ | ⟨h1, hr⟩ | ⟨h1, hr⟩ | ⟨h1, hr⟩ <;> subst h1 <;> subst hr
    · exact List.mem_append.mpr (Or.inl (List.mem_append.mpr (Or.inl (List.mem_append.mpr
        (Or.inl (by rw [hsing]; exact List.mem_singleton_self _))))))
    · exact List.mem_append.mpr (Or.inl (List.mem_append.mpr (Or.inl (List.mem_append.mpr
        (Or.inr (by rw [hsing]; exact List.mem_singleton_self _))))))
    · exact List.mem_append.mpr (Or.inl (List.mem_append.mpr
        (Or.inr (by rw [hsing]; exact List.mem_singleton_self _))))
    · exact List.mem_append.mpr (Or.inr (by rw [hsing]; exact List.mem_singleton_self _))
  · rcases hcf with ⟨h1, hr⟩ | ⟨h1, hr⟩ | ⟨h1, hr⟩ | ⟨h1, hr⟩ <;> subst h1 <;> subst hr <;>
      · intro e he h1e
        simp only [generate_coordinate_map, List.mem_cons, List.not_mem_nil, or_false] at he
        rcases he with he | he | he | he <;> subst he <;> first | rfl | simp at h1e

/-- Witness for C6 on two lat-named candidates with no disambiguating metadata. -/
theorem ambiguous_axis_recoverable_witness :
    2 ≤ (axisCandidates twoLatVar ["y", "lat"]).length ∧
      hasMark twoLatVar.coords "Y" = false ∧
      (metpy_axis_search twoLatVar "Y").result = none ∧
      ("y", twoLatVar.name) ∈ (metpy_axis_search twoLatVar "Y").warnings ∧
      (∀ w ∈ (metpy_axis_search twoLatVar "Y").writes, w.2 ≠ "Y") ∧
      (axisAccessor { twoLatVar with coords := (metpy_axis_search twoLatVar "Y").coords }
          "y").result = .error (.notAvailable "y") := by
  have h := ambiguous_axis_recoverable twoLatVar "Y" ["y", "lat"]
    (Or.inr (Or.inr (Or.inl ⟨rfl, rfl⟩))) (by decide) (fun _ => by decide) (by decide) (by decide)
  exact ⟨by decide, by decide, h.1, h.2.1, h.2.2.1, h.2.2.2⟩

/-! ## Further write-log lemmas (for C1 and C8) -/

theorem resolve_conflict_cases (axis : String) (lst : List Coord) :
    (resolve_axis_conflict axis lst).1 = lst.filter (fun c => check_axis c ["x", "y"]) ∨
    (resolve_axis_conflict axis lst).1 = lst.filter (fun c => c.dims.contains c.name) ∨
    (resolve_axis_conflict axis lst).1 = [] := by
  unfold resolve_axis_conflict
  by_cases hax : (axis == "Y" || axis == "X") = true
  · by_cases hb : ((lst.filter (fun c => check_axis c ["x", "y"])).length == 1) = true
    · simp only [hax, hb, eq_self_iff_true, if_true]
      exact Or.inl trivial
    · have hb2 : ((lst.filter (fun c => check_axis c ["x", "y"])).length == 1) = false := by
        simpa using hb
      by_cases hd : ((lst.filter (fun c => c.dims.contains c.name)).length == 1) = true
      · simp only [hax, hb2, hd, eq_self_iff_true, if_true, Bool.false_eq_true, if_false]
        exact Or.inr (Or.inl trivial)
      · have hd2 : ((lst.filter (fun c => c.dims.contains c.name)).length == 1) = false := by
          simpa using hd
        simp only [hax, hb2, hd2, eq_self_iff_true, if_true, Bool.false_eq_true, if_false]
        exact Or.inr (Or.inr trivial)
  · have hax2 : (axis == "Y" || axis == "X") = false := by simpa using hax
    by_cases hd : ((lst.filter (fun c => c.dims.contains c.name)).length == 1) = true
    · simp only [hax2, hd, eq_self_iff_true, if_true, Bool.false_eq_true, if_false]
      exact Or.inr (Or.inl trivial)
    · have hd2 : ((lst.filter (fun c => c.dims.contains c.name)).length == 1) = false := by
        simpa using hd
      simp only [hax2, hd2, eq_self_iff_true, if_true, Bool.false_eq_true, if_false]
      exact Or.inr (Or.inr trivial)

theorem resolve_conflict_subset (axis : String) (lst : List Coord) :
    ∀ x ∈ (resolve_axis_conflict axis lst).1, x ∈ lst := by
  intro x hx
  rcases resolve_conflict_cases axis lst with h | h | h <;> rw [h] at hx
  · exact (List.mem_filter.mp hx).1
  · exact (List.mem_filter.mp hx).1
  · cases hx

theorem mem_of_head?_eq_some {l : List Coord} {a : Coord} (h : l.head? = some a) : a ∈ l := by
  cases l with
  | nil => cases h
  | cons b t =>
    injection h with h
    subst h
    exact List.mem_cons_self _ _

theorem mem_axisResolved_subset (v : Variable) (cf : String) (rs : List String) (c : Coord)
    (hc : c ∈ axisResolved v cf rs) : c ∈ v.coords := by
  simp only [axisResolved] at hc
  by_cases h : (axisCandidates v rs).length > 1
  · rw [if_pos h] at hc
    exact (List.mem_filter.mp (resolve_conflict_subset cf _ c hc)).1
  · rw [if_neg h] at hc
    exact (List.mem_filter.mp hc).1

theorem forall₂_mem_left {α β : Type} {R : α → β → Prop} :
    ∀ {l : List α} {l2 : List β}, List.Forall₂ R l l2 → ∀ a ∈ l, ∃ b ∈ l2, R a b := by
  intro l l2 h
  induction h with
  | nil => intro a ha; cases ha
  | cons hr _ ih =>
    intro a ha
    rcases List.mem_cons.mp ha with ha | ha
    · exact ⟨_, List.mem_cons_self _ _, ha ▸ hr⟩
    · obtain ⟨b, hb, hrb⟩ := ih a ha
      exact ⟨b, List.mem_cons_of_mem _ hb, hrb⟩

theorem writeMarks_kinds_sublist (cmap : List (String × Option Coord)) (coords : List Coord) :
    ((writeMarks coords cmap).2.map Prod.snd).Sublist (cmap.map Prod.fst) := by
  induction cmap generalizing coords with
  | nil => simp [writeMarks]
  | cons e rest ih =>
    match he : e.2 with
    | none =>
      simp only [writeMarks, he, List.map_cons]
      exact (ih coords).cons _
    | some c =>
      cases hg : hasMark coords e.1 with
      | true =>
        simp only [writeMarks, he, hg, if_true, List.map_cons]
        exact (ih coords).cons _
      | false =>
        simp only [writeMarks, he, hg, Bool.false_eq_true, if_false, List.map_cons]
        exact (ih _).cons₂ _

theorem lookupCF_of_mem (v : Variable) (e : String × Option Coord)
    (he : e ∈ (generate_coordinate_map v).1) :
    lookupCF (generate_coordinate_map v).1 e.1 = e.2 := by
  simp only [generate_coordinate_map, List.mem_cons, List.not_mem_nil, or_false] at he
  rcases he with he | he | he | he <;> subst he <;> rfl

/-! ## C1 -/

/-- C1 counterexample: a coordinate pre-marked `T` whose metadata resolves it as
vertical has its mark overwritten with `Z` by a cache-miss lookup, so an existing
mark of a different kind is not preserved. -/
theorem cache_mark_overwritten_cex :
    markedHeightVar.coords = [⟨"height", ["height"], [("_metpy_axis", "T")]⟩] ∧
      markOf ⟨"height", ["height"], [("_metpy_axis", "T")]⟩ = some "T" ∧
      (metpy_axis_search markedHeightVar "Z").coords =
        [⟨"height", ["height"], [("_metpy_axis", "Z")]⟩] ∧
      markOf ⟨"height", ["height"], [("_metpy_axis", "Z")]⟩ = some "Z" := by
  decide

/-- C1 amended: during a lookup, a `_metpy_axis` mark of kind `K` is only ever
written onto the coordinate that the resolver resolved to `K`, and each kind is
written at most once; a coordinate already carrying a mark of a different kind is
not protected from being overwritten. -/
theorem cache_mark_writes_resolver_chosen (v : Variable) (cf : String) :
    (∀ w ∈ (metpy_axis_search v cf).writes,
      ∃ c, lookupCF (generate_coordinate_map v).1 w.2 = some c ∧ c.name = w.1) ∧
    ((metpy_axis_search v cf).writes.map Prod.snd).Nodup := by
  cases hfind : v.coords.find? (fun c => markOf c == some cf) with
  | some c =>
    have : (metpy_axis_search v cf).writes = [] := by
      simp only [metpy_axis_search, hfind]
    rw [this]
    exact ⟨fun w hw => absurd hw (List.not_mem_nil w), List.nodup_nil⟩
  | none =>
    have hwr : (metpy_axis_search v cf).writes =
        (writeMarks v.coords (generate_coordinate_map v).1).2 := by
      simp only [metpy_axis_search, hfind]
    rw [hwr]
    constructor
    · intro w hw
      obtain ⟨e, he, c, hec, hwc⟩ :=
        writeMarks_writes_kinds (generate_coordinate_map v).1 v.coords w hw
      subst hwc
      refine ⟨c, ?_, rfl⟩
      have := lookupCF_of_mem v e he
      rw [this, hec]
    · exact (writeMarks_kinds_sublist (generate_coordinate_map v).1 v.coords).nodup
        (by simp [generate_coordinate_map])

/-- Witness for C1's amended statement at the overwriting scenario. -/
theorem cache_mark_writes_resolver_chosen_witness :
    ("height", "Z") ∈ (metpy_axis_search markedHeightVar "Z").writes ∧
      (∃ c, lookupCF (generate_coordinate_map markedHeightVar).1 "Z" = some c ∧
        c.name = "height") ∧
      ((metpy_axis_search markedHeightVar "Z").writes.map Prod.snd).Nodup := by
  have h := cache_mark_writes_resolver_chosen markedHeightVar "Z"
  exact ⟨by decide, h.1 ("height", "Z") (by decide), h.2⟩

/-! ## C8 -/

theorem setMark_image_name (ca : Coord) (n K : String) :
    ((if (ca.name == n) = true then
        { ca with attrs := attrsSet ca.attrs "_metpy_axis" K } else ca) : Coord).name
      = ca.name := by
  by_cases h : (ca.name == n) = true
  · rw [if_pos h]
  · rw [if_neg h]

theorem setMark_image_markOf (ca : Coord) (n K : String) :
    markOf (if (ca.name == n) = true then
        { ca with attrs := attrsSet ca.attrs "_metpy_axis" K } else ca)
      = (if (ca.name == n) = true then some K else markOf ca) := by
  by_cases h : (ca.name == n) = true
  · rw [if_pos h, if_pos h]
    exact markOf_attrsSet_mark ca K
  · rw [if_neg h, if_neg h]

theorem writeMarks_sets_marks (cmap : List (String × Option Coord)) (coords : List Coord)
    (hm : ∀ c ∈ coords, ∀ e ∈ cmap, markOf c ≠ some e.1)
    (hkeys : (cmap.map Prod.fst).Nodup)
    (hinj2 : cmap.Pairwise (fun e1 e2 => ∀ c1 c2, e1.2 = some c1 → e2.2 = some c2 →
      c1.name ≠ c2.name))
    (hnames : ∀ e ∈ cmap, ∀ c : Coord, e.2 = some c → ∃ c0 ∈ coords, c0.name = c.name) :
    ∀ e ∈ cmap, ∀ c : Coord, e.2 = some c →
      ∃ c2 ∈ (writeMarks coords cmap).1, c2.name = c.name ∧ markOf c2 = some e.1 := by
  induction cmap generalizing coords with
  | nil => intro e he; cases he
  | cons e0 rest ih =>
    have hkeys2 : (rest.map Prod.fst).Nodup := (List.nodup_cons.mp (by simpa using hkeys)).2
    have hkey0 : e0.1 ∉ rest.map Prod.fst := (List.nodup_cons.mp (by simpa using hkeys)).1
    have hinjtail := (List.pairwise_cons.mp hinj2).2
    have hinjhead := (List.pairwise_cons.mp hinj2).1
    intro e he c hec
    match he0 : e0.2 with
    | none =>
      rcases List.mem_cons.mp he with he1 | he1
      · rw [he1, he0] at hec
        cases hec
      · simp only [writeMarks, he0]
        exact ih coords (fun cx hcx e2 he2 => hm cx hcx e2 (List.mem_cons_of_mem _ he2))
          hkeys2 hinjtail
          (fun e2 he2 cc hcc => hnames e2 (List.mem_cons_of_mem _ he2) cc hcc)
          e he1 c hec
    | some c0 =>
      have hguard : hasMark coords e0.1 = false := by
        cases hh : hasMark coords e0.1 with
        | false => rfl
        | true =>
          exfalso
          obtain ⟨cx, hcx, hbx⟩ := List.any_eq_true.mp hh
          exact hm cx hcx e0 (List.mem_cons_self _ _) (by simpa using hbx)
      simp only [writeMarks, he0, hguard, Bool.false_eq_true, if_false]
      have hm2 : ∀ cc ∈ setMark coords c0.name e0.1, ∀ e2 ∈ rest, markOf cc ≠ some e2.1 := by
        intro cc hcc e2 he2
        obtain ⟨ca, hca, hcaeq⟩ := List.mem_map.mp hcc
        rw [← hcaeq, setMark_image_markOf]
        by_cases hn : (ca.name == c0.name) = true
        · rw [if_pos hn]
          intro hKeq
          injection hKeq with hKeq
          exact hkey0 (hKeq ▸ List.mem_map.mpr ⟨e2, he2, rfl⟩)
        · rw [if_neg hn]
          exact hm ca hca e2 (List.mem_cons_of_mem _ he2)
      have hnames2 : ∀ e2 ∈ rest, ∀ cc : Coord, e2.2 = some cc →
          ∃ c0' ∈ setMark coords c0.name e0.1, c0'.name = cc.name := by
        intro e2 he2 cc hcc
        obtain ⟨cb, hcb, hcbname⟩ := hnames e2 (List.mem_cons_of_mem _ he2) cc hcc
        refine ⟨_, List.mem_map.mpr ⟨cb, hcb, rfl⟩, ?_⟩
        rw [setMark_image_name]
        exact hcbname
      rcases List.mem_cons.mp he with he1 | he1
      · rw [he1] at hec ⊢
        rw [he0] at hec
        injection hec with hec
        subst hec
        obtain ⟨cb, hcb, hcbname⟩ := hnames e0 (List.mem_cons_self _ _) c0 he0
        have hmem2 : ({ cb with attrs := attrsSet cb.attrs "_metpy_axis" e0.1 } : Coord)
            ∈ setMark coords c0.name e0.1 := by
          refine List.mem_map.mpr ⟨cb, hcb, ?_⟩
          rw [if_pos (beq_iff_eq.mpr hcbname)]
        have hmark2 : markOf ({ cb with attrs := attrsSet cb.attrs "_metpy_axis" e0.1 } : Coord)
            = some e0.1 := markOf_attrsSet_mark cb e0.1
        have hshadow := writeMarks_shadow rest (setMark coords c0.name e0.1)
        obtain ⟨c2, hc2, hrel⟩ := forall₂_mem_left hshadow _ hmem2
        have hc2name : c2.name = c0.name := by
          rw [hrel.1]
          exact hcbname
        refine ⟨c2, hc2, hc2name, ?_⟩
        rcases hrel.2.2.2 with hsame | ⟨K, hK, hKm⟩
        · rw [hsame]
          exact hmark2
        · exfalso
          obtain ⟨eK, heK, cK, heKc, hwK⟩ :=
            writeMarks_writes_kinds rest (setMark coords c0.name e0.1) _ hK
          have hnameK : c2.name = cK.name := by
            injection hwK with h1 h2
          exact hinjhead eK heK c0 cK he0 heKc (by rw [← hc2name, hnameK])
      · exact ih (setMark coords c0.name e0.1) hm2 hkeys2 hinjtail hnames2 e he1 c hec

theorem lookupCF_some_mem (cmap : List (String × Option Coord)) (cf : String) (c : Coord)
    (h : lookupCF cmap cf = some c) : ∃ e ∈ cmap, e.1 = cf ∧ e.2 = some c := by
  unfold lookupCF at h
  cases hf : cmap.find? (fun e => e.1 == cf) with
  | none => rw [hf] at h; cases h
  | some e =>
    rw [hf] at h
    refine ⟨e, List.mem_of_find?_eq_some hf, ?_, h⟩
    have := List.find?_some hf
    simpa using this

/-- C8 counterexample: a single coordinate resolving to both `Z` (name) and `Y`
(`standard_name`) is re-marked by every lookup, so the second identical call does
perform attribute writes; it is never satisfied from the cache. -/
theorem resolution_second_call_mutates_cex :
    (metpy_axis_search projYHeightVar "Z").writes = [("height", "Z"), ("height", "Y")] ∧
      (metpy_axis_search { projYHeightVar with
          coords := (metpy_axis_search projYHeightVar "Z").coords } "Z").writes =
        [("height", "Z"), ("height", "Y")] ∧
      (metpy_axis_search { projYHeightVar with
          coords := (metpy_axis_search projYHeightVar "Z").coords } "Z").writes ≠ [] := by
  decide

/-- C8 amended: with no pre-existing marks and distinct kinds resolved to
distinctly named coordinates, resolution is idempotent: the second identical
lookup returns the same result, performs no `_metpy_axis` write and leaves the
coordinate state unchanged. -/
theorem resolution_idempotent_amended (v : Variable) (cf : String)
    (hnomark : ∀ c ∈ v.coords, markOf c = none)
    (hinj : ∀ K1 K2 : String, ∀ c1 c2 : Coord, K1 ≠ K2 →
      lookupCF (generate_coordinate_map v).1 K1 = some c1 →
      lookupCF (generate_coordinate_map v).1 K2 = some c2 → c1.name ≠ c2.name) :
    (metpy_axis_search { v with coords := (metpy_axis_search v cf).coords } cf).result =
      (metpy_axis_search v cf).result ∧
    (metpy_axis_search { v with coords := (metpy_axis_search v cf).coords } cf).writes = [] ∧
    (metpy_axis_search { v with coords := (metpy_axis_search v cf).coords } cf).coords =
      (metpy_axis_search v cf).coords := by
  have hmk : hasMark v.coords cf = false := by
    cases hh : hasMark v.coords cf with
    | false => rfl
    | true =>
      exfalso
      obtain ⟨cx, hcx, hbx⟩ := List.any_eq_true.mp hh
      rw [hnomark cx hcx] at hbx
      cases hbx
  have hfind := hasMark_false_find?_none v.coords cf hmk
  have hsearch : metpy_axis_search v cf =
      ⟨(lookupCF (generate_coordinate_map v).1 cf).map Coord.name,
        (writeMarks v.coords (generate_coordinate_map v).1).1,
        (writeMarks v.coords (generate_coordinate_map v).1).2,
        (generate_coordinate_map v).2⟩ := by
    simp only [metpy_axis_search, hfind]
  have hm0 : ∀ c ∈ v.coords, ∀ e ∈ (generate_coordinate_map v).1, markOf c ≠ some e.1 := by
    intro c hc e _ hx
    rw [hnomark c hc] at hx
    cases hx
  have hkeys : ((generate_coordinate_map v).1.map Prod.fst).Nodup := by
    have h4 : (generate_coordinate_map v).1.map Prod.fst = ["T", "Z", "Y", "X"] := rfl
    rw [h4]
    decide
  have hinj2 : (generate_coordinate_map v).1.Pairwise
      (fun e1 e2 => ∀ c1 c2 : Coord, e1.2 = some c1 → e2.2 = some c2 →
        c1.name ≠ c2.name) := by
    refine List.Pairwise.cons ?_ (List.Pairwise.cons ?_ (List.Pairwise.cons ?_
      (List.Pairwise.cons ?_ List.Pairwise.nil)))
    · intro e2 he2 c1 c2 h1 h2
      simp only [List.mem_cons, List.not_mem_nil, or_false] at he2
      rcases he2 with he2 | he2 | he2 <;> subst he2
      · exact hinj "T" "Z" c1 c2 (by decide) h1 h2
      · exact hinj "T" "Y" c1 c2 (by decide) h1 h2
      · exact hinj "T" "X" c1 c2 (by decide) h1 h2
    · intro e2 he2 c1 c2 h1 h2
      simp only [List.mem_cons, List.not_mem_nil, or_false] at he2
      rcases he2 with he2 | he2 <;> subst he2
      · exact hinj "Z" "Y" c1 c2 (by decide) h1 h2
      · exact hinj "Z" "X" c1 c2 (by decide) h1 h2
    · intro e2 he2 c1 c2 h1 h2
      simp only [List.mem_cons, List.not_mem_nil, or_false] at he2
      subst he2
      exact hinj "Y" "X" c1 c2 (by decide) h1 h2
    · intro e2 he2
      cases he2
  have hnames : ∀ e ∈ (generate_coordinate_map v).1, ∀ c : Coord, e.2 = some c →
      ∃ c0 ∈ v.coords, c0.name = c.name := by
    intro e he c hc
    simp only [generate_coordinate_map, List.mem_cons, List.not_mem_nil, or_false] at he
    rcases he with he | he | he | he <;> rw [he] at hc <;>
      exact ⟨c, mem_axisResolved_subset v _ _ c (mem_of_head?_eq_some hc), rfl⟩
  have hsm := writeMarks_sets_marks (generate_coordinate_map v).1 v.coords hm0 hkeys hinj2 hnames
  have hshadow := writeMarks_shadow (generate_coordinate_map v).1 v.coords
  have hB : ∀ c2 ∈ (writeMarks v.coords (generate_coordinate_map v).1).1, ∀ K,
      markOf c2 = some K →
      ∃ c, lookupCF (generate_coordinate_map v).1 K = some c ∧ c2.name = c.name := by
    intro c2 hc2 K hK
    obtain ⟨ca, hca, hrel⟩ := forall₂_mem_right hshadow c2 hc2
    rcases hrel.2.2.2 with hsame | ⟨K2, hK2, hK2m⟩
    · rw [hnomark ca hca] at hsame
      rw [hsame] at hK
      cases hK
    · obtain ⟨e, he, cw, hew, hwc⟩ :=
        writeMarks_writes_kinds (generate_coordinate_map v).1 v.coords _ hK2
      injection hwc with hn1 hn2
      have hKK2 : K = K2 := by
        rw [hK] at hK2m
        exact Option.some.inj hK2m
      have hl := lookupCF_of_mem v e he
      refine ⟨cw, ?_, hn1⟩
      rw [hKK2, hn2, hl, hew]
  cases hlcf : lookupCF (generate_coordinate_map v).1 cf with
  | some c =>
    obtain ⟨e, he, he1, he2⟩ := lookupCF_some_mem _ cf c hlcf
    obtain ⟨c2, hc2S, hc2name, hc2mark⟩ := hsm e he c he2
    have hEx : ∃ x ∈ (writeMarks v.coords (generate_coordinate_map v).1).1,
        (markOf x == some cf) = true :=
      ⟨c2, hc2S, by rw [hc2mark, he1]; simp⟩
    have hisSome : ((writeMarks v.coords (generate_coordinate_map v).1).1.find?
        (fun cc => markOf cc == some cf)).isSome := by
      rw [List.find?_isSome]
      exact hEx
    obtain ⟨x, hx⟩ := Option.isSome_iff_exists.mp hisSome
    have hxmem := List.mem_of_find?_eq_some hx
    have hxmark : markOf x = some cf := by
      simpa using List.find?_some hx
    obtain ⟨c', hc', hxname⟩ := hB x hxmem cf hxmark
    have hceq : c' = c := by
      rw [hlcf] at hc'
      exact (Option.some.inj hc').symm
    rw [hsearch]
    have hsearch2 : metpy_axis_search
        { v with coords := (writeMarks v.coords (generate_coordinate_map v).1).1 } cf =
        ⟨some x.name, (writeMarks v.coords (generate_coordinate_map v).1).1, [], []⟩ := by
      simp only [metpy_axis_search, hx]
    refine ⟨?_, ?_, ?_⟩
    · rw [hsearch2]
      simp only [hlcf, Option.map_some']
      rw [hxname, hceq]
    · rw [hsearch2]
    · rw [hsearch2]
  | none =>
    have hmkS : hasMark (writeMarks v.coords (generate_coordinate_map v).1).1 cf = false := by
      cases hh : hasMark (writeMarks v.coords (generate_coordinate_map v).1).1 cf with
      | false => rfl
      | true =>
        exfalso
        obtain ⟨c2, hc2, hb2⟩ := List.any_eq_true.mp hh
        obtain ⟨cc, hcc, _⟩ := hB c2 hc2 cf (by simpa using hb2)
        rw [hlcf] at hcc
        cases hcc
    have hfind2 := hasMark_false_find?_none _ cf hmkS
    have hcong := gcm_names_congr (writeMarks v.coords (generate_coordinate_map v).1).2 v
      { v with coords := (writeMarks v.coords (generate_coordinate_map v).1).1 } rfl hshadow
    have hskip : writeMarks (writeMarks v.coords (generate_coordinate_map v).1).1
        (generate_coordinate_map
          { v with coords := (writeMarks v.coords (generate_coordinate_map v).1).1 }).1 =
        ((writeMarks v.coords (generate_coordinate_map v).1).1, []) := by
      apply writeMarks_skip_all
      intro e2 he2 cc hcc
      have hl2 := lookupCF_of_mem
        { v with coords := (writeMarks v.coords (generate_coordinate_map v).1).1 } e2 he2
      have hmap : (lookupCF (generate_coordinate_map
          { v with coords := (writeMarks v.coords (generate_coordinate_map v).1).1 }).1
            e2.1).map Coord.name = some cc.name := by
        rw [hl2, hcc]
        rfl
      rw [hcong.1 e2.1] at hmap
      obtain ⟨cK, hcK, _⟩ := Option.map_eq_some'.mp hmap
      obtain ⟨eK, heK, heK1, heK2⟩ := lookupCF_some_mem _ e2.1 cK hcK
      obtain ⟨c2, hc2S, _, hc2mark⟩ := hsm eK heK cK heK2
      rw [heK1] at hc2mark
      exact List.any_eq_true.mpr ⟨c2, hc2S, by rw [hc2mark]; simp⟩
    have hr2 : (metpy_axis_search
        { v with coords := (writeMarks v.coords (generate_coordinate_map v).1).1 } cf).result =
        (lookupCF (generate_coordinate_map
          { v with coords := (writeMarks v.coords (generate_coordinate_map v).1).1 }).1
            cf).map Coord.name := by
      simp only [metpy_axis_search, hfind2]
    have hw2 : (metpy_axis_search
        { v with coords := (writeMarks v.coords (generate_coordinate_map v).1).1 } cf).writes =
        (writeMarks (writeMarks v.coords (generate_coordinate_map v).1).1
          (generate_coordinate_map
            { v with coords := (writeMarks v.coords (generate_coordinate_map v).1).1 }).1).2 := by
      simp only [metpy_axis_search, hfind2]
    have hc2 : (metpy_axis_search
        { v with coords := (writeMarks v.coords (generate_coordinate_map v).1).1 } cf).coords =
        (writeMarks (writeMarks v.coords (generate_coordinate_map v).1).1
          (generate_coordinate_map
            { v with coords := (writeMarks v.coords (generate_coordinate_map v).1).1 }).1).1 := by
      simp only [metpy_axis_search, hfind2]
    rw [hsearch]
    refine ⟨?_, ?_, ?_⟩
    · rw [hr2, hcong.1 cf, hlcf]
    · rw [hw2, hskip]
    · rw [hc2, hskip]

/-- Witness for C8's amended statement on an unmarked lat/lon variable. -/
theorem resolution_idempotent_amended_witness :
    (metpy_axis_search { latLonVar with
        coords := (metpy_axis_search latLonVar "Y").coords } "Y").result =
      (metpy_axis_search latLonVar "Y").result ∧
    (metpy_axis_search { latLonVar with
        coords := (metpy_axis_search latLonVar "Y").coords } "Y").writes = [] ∧
    (metpy_axis_search { latLonVar with
        coords := (metpy_axis_search latLonVar "Y").coords } "Y").coords =
      (metpy_axis_search latLonVar "Y").coords := by
  refine resolution_idempotent_amended latLonVar "Y" (by decide) ?_
  intro K1 K2 c1 c2 hne h1 h2
  have hcm : (generate_coordinate_map latLonVar).1 =
      [("T", none), ("Z", none),
       ("Y", some ⟨"lat", ["lat"], [("units", "degrees_north")]⟩),
       ("X", some ⟨"lon", ["lon"], [("units", "degrees_east")]⟩)] := by decide
  rw [hcm] at h1 h2
  obtain ⟨e1, he1, hk1, hv1⟩ := lookupCF_some_mem _ K1 c1 h1
  obtain ⟨e2, he2, hk2, hv2⟩ := lookupCF_some_mem _ K2 c2 h2
  simp only [List.mem_cons, List.not_mem_nil, or_false] at he1 he2
  rcases he1 with he1 | he1 | he1 | he1 <;> subst he1 <;>
    rcases he2 with he2 | he2 | he2 | he2 <;> subst he2 <;>
      first
        | exact Option.noConfusion hv1
        | exact Option.noConfusion hv2
        | (exact absurd (hk1.symm.trans hk2) hne)
        | (injection hv1 with hv1
           injection hv2 with hv2
           subst hv1
           subst hv2
           decide)

/-! ## C3 -/

theorem reassignLoop_nil (fuel : Nat) (v : Variable) (m : Indexers) :
    reassignLoop (fuel + 1) v m [] = .ok (v, m) := rfl

theorem reassignLoop_cons (fuel : Nat) (v : Variable) (m : Indexers) (k : String)
    (rest : List String) :
    reassignLoop (fuel + 1) v m (k :: rest) =
      (match processKey v m k with
        | .error e => .error e
        | .ok (v2, m2, app) =>
          reassignLoop fuel v2 m2
            (rest ++ (match app with | some n => [n] | none => []))) := rfl

theorem reassign_single_key (v : Variable) (c : Coord) (k : String) (val val2 : IdxVal)
    (hc : findCoord v k = some c)
    (hskip : (!(v.dims.contains k) && (lookupReadable k).isSome) = false)
    (target : UnitDef) (hu : metpyUnits c = .ok target)
    (ht : translateValue target val = .ok val2) :
    reassign_quantity_indexer v [(k, val)] = .ok (v, [(k, val2)]) := by
  have hget : idxGet [(k, val)] k = some val := by
    simp [idxGet, List.find?]
  have hset : idxSet [(k, val)] k val2 = [(k, val2)] := by
    simp [idxSet]
  have hpk : processKey v [(k, val)] k = .ok (v, [(k, val2)], none) := by
    simp only [processKey, hskip, Bool.false_eq_true, if_false, hget, hc, hu, ht, hset]
  have h0 : reassign_quantity_indexer v [(k, val)] =
      reassignLoop (3 + 1) v [(k, val)] [k] := rfl
  rw [h0, reassignLoop_cons, hpk]
  show reassignLoop (2 + 1) v [(k, val2)] [] = .ok (v, [(k, val2)])
  rw [reassignLoop_nil]

/-- C3: the quantity indexer converts a unit-tagged scalar selection value into
its plain converted magnitude in the coordinate's declared unit, passes plain
untagged values through unchanged, leaves an untagged `None` slice endpoint as
`None`, and translates `{vertical: slice(1000 hPa, 500 hPa)}` on a `pressure`
coordinate declared in `hPa` to `{"pressure": slice(1000, 500)}`. -/
theorem quantity_indexer_translation (v : Variable) (c : Coord) (k : String)
    (hc : findCoord v k = some c)
    (hskip : (!(v.dims.contains k) && (lookupReadable k).isSome) = false)
    (target : UnitDef) (hu : metpyUnits c = .ok target) :
    (∀ (m : ℚ) (u : String) (ud : UnitDef), parseUnit u = some ud → ud.dim = target.dim →
      reassign_quantity_indexer v [(k, .scalar (.quantity m u))] =
        .ok (v, [(k, .scalar (.plain (m * ud.factor / target.factor)))])) ∧
    (∀ m : ℚ, reassign_quantity_indexer v [(k, .scalar (.plain m))] =
        .ok (v, [(k, .scalar (.plain m))])) ∧
    (∀ s2 s3 t2 t3, to_magnitude s2 target = .ok t2 → to_magnitude s3 target = .ok t3 →
      reassign_quantity_indexer v [(k, .slice3 .pynone s2 s3)] =
        .ok (v, [(k, .slice3 .pynone t2 t3)])) ∧
    reassign_quantity_indexer pressureVar
        [("vertical", .slice3 (.quantity 1000 "hPa") (.quantity 500 "hPa") .pynone)] =
      .ok ({ pressureVar with coords := [⟨"pressure", ["pressure"],
              [("standard_name", "air_pressure"), ("units", "hPa"), ("_metpy_axis", "Z")]⟩] },
           [("pressure", .slice3 (.plain 1000) (.plain 500) .pynone)]) := by
  refine ⟨?_, ?_, ?_, ?_⟩
  · intro m u ud hpu hdim
    have ht : translateValue target (.scalar (.quantity m u)) =
        .ok (.scalar (.plain (m * ud.factor / target.factor))) := by
      simp [translateValue, to_magnitude, hpu, hdim]
    exact reassign_single_key v c k _ _ hc hskip target hu ht
  · intro m
    exact reassign_single_key v c k _ _ hc hskip target hu rfl
  · intro s2 s3 t2 t3 h2 h3
    have ht : translateValue target (.slice3 .pynone s2 s3) =
        .ok (.slice3 .pynone t2 t3) := by
      have hp : to_magnitude .pynone target = .ok .pynone := rfl
      simp only [translateValue, hp, h2, h3]
    exact reassign_single_key v c k _ _ hc hskip target hu ht
  · have hrun : reassign_quantity_indexer pressureVar
        [("vertical", .slice3 (.quantity 1000 "hPa") (.quantity 500 "hPa") .pynone)] =
        .ok ({ pressureVar with coords := [⟨"pressure", ["pressure"],
                [("standard_name", "air_pressure"), ("units", "hPa"), ("_metpy_axis", "Z")]⟩] },
             [("pressure", .slice3 (.plain (1000 * 100 / 100)) (.plain (500 * 100 / 100))
                .pynone)]) := rfl
    have e1 : ((1000 : ℚ) * 100 / 100) = 1000 := by norm_num
    have e2 : ((500 : ℚ) * 100 / 100) = 500 := by norm_num
    rw [hrun, e1, e2]

/-- Witness for C3 at an untagged scalar on the pressure coordinate. -/
theorem quantity_indexer_translation_witness :
    reassign_quantity_indexer pressureVar [("pressure", .scalar (.plain 7))] =
      .ok (pressureVar, [("pressure", .scalar (.plain 7))]) :=
  (quantity_indexer_translation pressureVar pressureCoord "pressure" rfl rfl
    ⟨.pressure, 100⟩ rfl).2.1 7

/-- Witness for C2: two Y candidates, exactly one a projection coordinate; it is
selected and no Y warning is emitted. -/
theorem horizontal_conflict_tiebreak_witness :
    2 ≤ (axisCandidates projTieVar ["y", "lat"]).length ∧
      (axisCandidates projTieVar ["y", "lat"]).filter (fun c => check_axis c ["x", "y"]) =
        [⟨"yc", [], [("standard_name", "projection_y_coordinate")]⟩] ∧
      lookupCF (generate_coordinate_map projTieVar).1 "Y" =
        some ⟨"yc", [], [("standard_name", "projection_y_coordinate")]⟩ ∧
      ("y", projTieVar.name) ∉ (generate_coordinate_map projTieVar).2 := by
  refine ⟨by decide, by decide, ?_⟩
  have h := (horizontal_conflict_tiebreak projTieVar "Y" ["y", "lat"]
      (Or.inl ⟨rfl, rfl⟩) (by decide)).1
    ⟨"yc", [], [("standard_name", "projection_y_coordinate")]⟩ (by decide)
  exact h

end MetPyXarray
